import Mathlib

/-
Verification of the row-transformation engine of the student-marks grading
repository (src/transformer.py).

The embedding models a pandas row (as produced by `row.to_dict()`) as an
association list from field names to scalar values.  A scalar is either a
string, a (numpy) number, or the floating NaN that pandas uses for missing
cells.  Numbers are exact fractions (an integer numerator over a positive
integer denominator) instead of IEEE doubles; NaN propagation and Python's
"NaN comparisons are false" rule are modelled explicitly.  Outside the
model (documented where relevant): IEEE rounding error, infinities
(strings such as "inf", or division of a nonzero value by zero, which
numpy turns into ±inf with a warning).  Zero-divisor division is modelled
as NaN.
-/

namespace Marks

/-- `10 ^ k` over ℤ, by structural recursion (kernel-computable). -/
def pow10 : ℕ → ℤ
  | 0 => 1
  | k + 1 => 10 * pow10 k

theorem pow10_pos (k : ℕ) : 0 < pow10 k := by
  induction k with
  | zero => decide
  | succ k ih => have : (0:ℤ) < 10 := by decide
                 simpa [pow10] using mul_pos this ih

/-- An exact number: numerator over positive denominator, not reduced
(no gcd, so every operation is kernel-computable).  Stands for the exact
value of a Python/numpy number. -/
structure Q where
  n : ℤ
  d : ℤ
  dpos : 0 < d

namespace Q

@[ext] theorem ext {a b : Q} (hn : a.n = b.n) (hd : a.d = b.d) : a = b := by
  cases a; cases b; simp_all

/-- Embedding into ℚ, used only in proofs. -/
def toRat (q : Q) : ℚ := (q.n : ℚ) / (q.d : ℚ)

def ofInt (i : ℤ) : Q := ⟨i, 1, one_pos⟩

def add (a b : Q) : Q := ⟨a.n * b.d + b.n * a.d, a.d * b.d, mul_pos a.dpos b.dpos⟩

def sub (a b : Q) : Q := ⟨a.n * b.d - b.n * a.d, a.d * b.d, mul_pos a.dpos b.dpos⟩

def mul (a b : Q) : Q := ⟨a.n * b.n, a.d * b.d, mul_pos a.dpos b.dpos⟩

def neg (a : Q) : Q := ⟨-a.n, a.d, a.dpos⟩

/-- Division.  A zero divisor yields the (unreachable, caller-guarded)
junk value 0. -/
def div (a b : Q) : Q :=
  if h : 0 < a.d * b.n then ⟨a.n * b.d, a.d * b.n, h⟩
  else if h2 : 0 < -(a.d * b.n) then ⟨-(a.n * b.d), -(a.d * b.n), h2⟩
  else ofInt 0

/-- Semantic equality test (cross-multiplication). -/
def beq (a b : Q) : Bool := a.n * b.d == b.n * a.d

/-- Semantic `≤` test. -/
def ble (a b : Q) : Bool := decide (a.n * b.d ≤ b.n * a.d)

/-- Semantic `<` test. -/
def blt (a b : Q) : Bool := decide (a.n * b.d < b.n * a.d)

/-- Multiplication by `10 ^ e` for an integer exponent. -/
def mulPow10 (q : Q) (e : ℤ) : Q :=
  if 0 ≤ e then ⟨q.n * pow10 e.natAbs, q.d, q.dpos⟩
  else ⟨q.n, q.d * pow10 e.natAbs, mul_pos q.dpos (pow10_pos _)⟩

/-- Round half to even to an integer (Python `round(x)` /
`int(round(x))`), by integer arithmetic: compare twice the fractional
remainder against the denominator. -/
def roundHE (q : Q) : ℤ :=
  if 2 * (q.n - Int.fdiv q.n q.d * q.d) < q.d then Int.fdiv q.n q.d
  else if q.d < 2 * (q.n - Int.fdiv q.n q.d * q.d) then Int.fdiv q.n q.d + 1
  else if Int.fdiv q.n q.d % 2 = 0 then Int.fdiv q.n q.d else Int.fdiv q.n q.d + 1

/-- Python `round(x, 2)` on an exact value: round half to even at two
decimal places (the ideal-decimal reading of the float round). -/
def round2 (q : Q) : Q := ⟨roundHE (q.mul (ofInt 100)), 100, by decide⟩

instance : DecidableEq Q := fun a b =>
  decidable_of_iff (a.n = b.n ∧ a.d = b.d)
    ⟨fun h => Q.ext h.1 h.2, fun h => by cases h; exact ⟨rfl, rfl⟩⟩

end Q

/-- A Python float value: `none` is NaN, `some q` an ordinary (finite)
number. -/
abbrev PyF := Option Q

namespace PyF

/-- Float addition; NaN propagates. -/
def add : PyF → PyF → PyF
  | some a, some b => some (a.add b)
  | _, _ => none

/-- Float subtraction; NaN propagates. -/
def sub : PyF → PyF → PyF
  | some a, some b => some (a.sub b)
  | _, _ => none

/-- Float multiplication; NaN propagates. -/
def mul : PyF → PyF → PyF
  | some a, some b => some (a.mul b)
  | _, _ => none

/-- Float division; NaN propagates.  A zero divisor is modelled as NaN
(in the source a zero divisor only arises on degenerate inputs; numpy
would produce ±inf there, Python floats would raise — both outside the
claims checked here). -/
def div : PyF → PyF → PyF
  | some a, some b => if b.n = 0 then none else some (a.div b)
  | _, _ => none

/-- `x >= c`; false on NaN, exactly as in Python. -/
def ge (x : PyF) (c : Q) : Bool :=
  match x with
  | some a => c.ble a
  | none => false

/-- `x > c`; false on NaN. -/
def gt (x : PyF) (c : Q) : Bool :=
  match x with
  | some a => c.blt a
  | none => false

/-- `x < c`; false on NaN. -/
def lt (x : PyF) (c : Q) : Bool :=
  match x with
  | some a => a.blt c
  | none => false

/-- `c <= x`; false on NaN. -/
def leOf (c : Q) (x : PyF) : Bool :=
  match x with
  | some a => c.ble a
  | none => false

/-- Python `min(x, c)` (`c` if `c < x` else `x`); since a NaN comparison
is false, `min(nan, c)` is NaN. -/
def minC (x : PyF) (c : Q) : PyF :=
  match x with
  | some a => some (if c.blt a then c else a)
  | none => none

/-- Python `max(0, x)`: keeps the running maximum starting at 0, and a
NaN comparison is false, so `max(0, nan) = 0`. -/
def max0 (x : PyF) : Q :=
  match x with
  | some a => if (Q.ofInt 0).blt a then a else Q.ofInt 0
  | none => Q.ofInt 0

/-- `round(x, 2)`; NaN rounds to NaN. -/
def round2 : PyF → PyF
  | some q => some q.round2
  | none => none

end PyF

/-! ### String utilities (structural recursion, kernel-computable) -/

/-- Digit character for `n < 10`. -/
def digitChar (n : ℕ) : Char := Char.ofNat (48 + n)

/-- Fuel-driven decimal digits of a natural number (most significant
first).  Called with fuel `n + 1` the fuel never runs out. -/
def natReprAux : ℕ → ℕ → List Char
  | 0, _ => []
  | fuel + 1, n =>
    if n < 10 then [digitChar n]
    else natReprAux fuel (n / 10) ++ [digitChar (n % 10)]

/-- Decimal representation of a natural number. -/
def natRepr (n : ℕ) : String := ⟨natReprAux (n + 1) n⟩

/-- Decimal representation of an integer. -/
def intRepr (i : ℤ) : String :=
  if i < 0 then "-" ++ natRepr i.natAbs else natRepr i.natAbs

/-- Whitespace test used by Python's `str.strip`. -/
def isSpace (c : Char) : Bool :=
  c == ' ' || c == '\t' || c == '\n' || c == '\r'

/-- `str.strip()` on a character list. -/
def trimChars (l : List Char) : List Char :=
  ((l.dropWhile isSpace).reverse.dropWhile isSpace).reverse

/-- `str.strip()`. -/
def pyTrim (s : String) : String := ⟨trimChars s.data⟩

/-- `str.upper()` (ASCII, which is all the source compares against). -/
def pyUpper (s : String) : String := ⟨s.data.map Char.toUpper⟩

/-- `str.lower()` (ASCII). -/
def pyLower (s : String) : String := ⟨s.data.map Char.toLower⟩

/-- `c in s` for a single-character needle. -/
def containsChar (s : String) (c : Char) : Bool := s.data.contains c

/-- `s.split(c)` on character lists (Python semantics for a
one-character separator: n separators yield n+1 pieces). -/
def splitChar (c : Char) : List Char → List (List Char)
  | [] => [[]]
  | x :: xs =>
    let r := splitChar c xs
    if x == c then [] :: r
    else
      match r with
      | [] => [[x]]
      | h :: t => (x :: h) :: t

/-- `s.split("/")` returning strings. -/
def pySplitSlash (s : String) : List String :=
  (splitChar '/' s.data).map (fun l => ⟨l⟩)

/-- `s.replace("G-", "")`: removes every (leftmost-first) occurrence of
the two-character pattern `G-`. -/
def removeGDash : List Char → List Char
  | 'G' :: '-' :: rest => removeGDash rest
  | c :: rest => c :: removeGDash rest
  | [] => []

/-- `s.startswith("G-")`. -/
def startsWithGDash (s : String) : Bool :=
  match s.data with
  | 'G' :: '-' :: _ => true
  | _ => false

/-! ### Numeric parsing (Python `float(...)` / `pd.to_numeric`) -/

/-- Value of a decimal digit character, if it is one. -/
def digitVal (c : Char) : Option ℕ :=
  if '0' ≤ c && c ≤ '9' then some (c.toNat - 48) else none

/-- Reads a maximal run of digits: returns the value, the digit count
and the remaining characters. -/
def readDigits : List Char → ℕ → ℕ → ℕ × ℕ × List Char
  | [], v, k => (v, k, [])
  | c :: cs, v, k =>
    match digitVal c with
    | some d => readDigits cs (v * 10 + d) (k + 1)
    | none => (v, k, c :: cs)

/-- Parses `digits [. digits]` (at least one digit overall). -/
def parseUnsigned (l : List Char) : Option (Q × List Char) :=
  let (ip, ik, r1) := readDigits l 0 0
  match r1 with
  | '.' :: r2 =>
    let (fp, fk, r3) := readDigits r2 0 0
    if ik + fk = 0 then none
    else some (⟨(ip : ℤ) * pow10 fk + (fp : ℤ), pow10 fk, pow10_pos fk⟩, r3)
  | _ => if ik = 0 then none else some (Q.ofInt ip, r1)

/-- Parses an optional exponent part `[eE][+-]digits`. -/
def parseExpPart (q : Q) (l : List Char) : Option (Q × List Char) :=
  match l with
  | 'e' :: r | 'E' :: r =>
    let (sgn, r2) : ℤ × List Char :=
      match r with
      | '+' :: r2 => (1, r2)
      | '-' :: r2 => (-1, r2)
      | _ => (1, r)
    let (ev, ek, r3) := readDigits r2 0 0
    if ek = 0 then none
    else some (q.mulPow10 (sgn * ev), r3)
  | _ => some (q, l)

/-- Python float-literal parsing of a string (after stripping): optional
sign, decimal mantissa, optional exponent.  `none` means `float(s)`
raises `ValueError`.  The special forms "nan"/"inf" are handled by the
callers. -/
def strParseNum (s : String) : Option Q :=
  let l := trimChars s.data
  let (sgn, l1) : Bool × List Char :=
    match l with
    | '+' :: r => (false, r)
    | '-' :: r => (true, r)
    | _ => (false, l)
  match parseUnsigned l1 with
  | none => none
  | some (q, r1) =>
    match parseExpPart q r1 with
    | none => none
    | some (q2, r2) => if r2 = [] then some (if sgn then q2.neg else q2) else none

/-! ### Decimal representation of a number value (`str(x)` on a numpy
number).  Exact for fractions with a finite decimal expansion (which is
every value Python data can denote); other fractions get an unparseable
placeholder (they cannot arise from actual Python inputs, where every
float is dyadic). -/

/-- Left-pads a digit list with zeros to length `k`. -/
def padZeros (l : List Char) (k : ℕ) : List Char :=
  List.replicate (k - l.length) '0' ++ l

/-- Smallest `k ≤ 20` with `q * 10^k` integral, if any. -/
def findPow10 (q : Q) : Option ℕ :=
  (List.range 21).find? (fun k => (q.n * pow10 k) % q.d == 0)

/-- `str(x)` for a number value. -/
def numRepr (q : Q) : String :=
  match findPow10 q with
  | some 0 => intRepr (q.n / q.d)
  | some (k + 1) =>
    let m := (q.n * pow10 (k + 1)) / q.d
    let a := m.natAbs
    let tp := (pow10 (k + 1)).natAbs
    let ip := a / tp
    let fp := a % tp
    let core := natReprAux (ip + 1) ip ++ '.' :: padZeros (natReprAux (fp + 1) fp) (k + 1)
    ⟨if m < 0 then '-' :: core else core⟩
  | none => intRepr q.n ++ "x" ++ natRepr q.d.natAbs

/-! ### Val: a Python scalar -/

/-- A Python scalar as found in a pandas row dictionary: a string, a
(numpy) number, or the floating NaN used for missing cells. -/
inductive Val where
  | str (s : String)
  | num (q : Q)
  | nan
deriving DecidableEq

namespace Val

/-- Python `str(v)`. -/
def pyStr : Val → String
  | .str s => s
  | .num q => numRepr q
  | .nan => "nan"

/-- Python truthiness (`bool(v)`): a string is truthy iff nonempty, a
number iff nonzero; NaN is truthy. -/
def truthy : Val → Bool
  | .str s => !(s == "")
  | .num q => !(q.n == 0)
  | .nan => true

/-- Python `v in [s₁, …]` membership against a list of string literals
(`None` never occurs as a value in the model; a number or NaN never
equals a string). -/
def inStrs (v : Val) (l : List String) : Bool :=
  match v with
  | .str s => l.contains s
  | _ => false

/-- Stores a float back into a row value. -/
def ofPyF : PyF → Val
  | some q => .num q
  | none => .nan

/-- `pd.notna(v)`: false exactly on NaN. -/
def notna : Val → Bool
  | .nan => false
  | _ => true

end Val

/-- Result of Python `float(v)`: either a float value (possibly NaN) or
a raised exception. -/
inductive FRes where
  | val (x : PyF)
  | exc
deriving DecidableEq

/-- Python `float(v)`.  On strings: strips, accepts "nan" (any case,
optional sign) as NaN, otherwise parses a float literal or raises. -/
def pyFloat (v : Val) : FRes :=
  match v with
  | .num q => .val (some q)
  | .nan => .val none
  | .str s =>
    let t := pyLower (pyTrim s)
    if t == "nan" || t == "+nan" || t == "-nan" then .val none
    else
      match strParseNum s with
      | some q => .val (some q)
      | none => .exc

/-- `pd.to_numeric(v, errors="coerce")`: never raises, NaN on failure. -/
def toNumeric (v : Val) : PyF :=
  match v with
  | .num q => some q
  | .nan => none
  | .str s =>
    let t := pyLower (pyTrim s)
    if t == "nan" || t == "+nan" || t == "-nan" then none
    else strParseNum s

/-! ### Dictionaries (Python dict of field name → scalar) -/

/-- A row: field name to scalar.  Later `dset` entries shadow earlier
ones, matching dict assignment; lookup takes the first match. -/
abbrev PyDict := List (String × Val)

/-- `d.get(k, dflt)`. -/
def dget (d : PyDict) (k : String) (dflt : Val) : Val :=
  match d.find? (fun p => p.1 == k) with
  | some p => p.2
  | none => dflt

/-- `k in d`. -/
def dcontains (d : PyDict) (k : String) : Bool :=
  d.any (fun p => p.1 == k)

/-- `d[k] = v`. -/
def dset (d : PyDict) (k : String) (v : Val) : PyDict := (k, v) :: d

/-- Output key `SUB{i}` followed by a suffix such as `_GRADE`. -/
def subKey (i : ℕ) (suffix : String) : String := "SUB" ++ natRepr i ++ suffix

/-! ### Scheme registry (src/transformer.py: SCHEME_CONFIG,
get_scheme_for_course) -/

/-- A grading scheme: three passing thresholds and the courses bound to
it. -/
structure Scheme where
  theory_passing : Q
  practical_passing : Q
  aggregate_passing : Q
  courses : List String

def scheme1 : Scheme :=
  ⟨Q.ofInt 36, Q.ofInt 40, Q.ofInt 40,
   ["B.A.", "B.A.-B.Ed.S", "B.COM", "B.Ed.(CD)",
    "B.ED.(G)", "B.Ed.-M.Ed.", "B.Sc.-B.Ed.", "BPES", "M.A. ARCHEOLOGY",
    "M.Ed."]⟩

def scheme2 : Scheme :=
  ⟨Q.ofInt 36, Q.ofInt 36, Q.ofInt 40,
   ["B.Sc.-AGRICULTURE", "B.Sc.-BIO/BCZ/SBS/CBZ", "B.Sc.-BIO-TECHNOLOGY",
    "B.Sc.-PCM", "B.Sc.-PMC", "B.Sc.-PMS", "DIPLOMA IN ARCHEOLOGY",
    "M.A. JYOTIRVIGYAN",
    "M.A. MUSIC", "M.A. PHYSICAL EDUCATION", "M.A. PSYCHOLOGY",
    "M.A. SOCIOLOGY", "M.A. YOGA", "M.A.-ECONOMICS", "M.A.-ENGLISH",
    "M.A.-GEOGRAPHY", "M.A.-HINDI", "M.A.-HISTORY", "M.A.-POLITICAL SCIENCE",
    "M.A.-SANSKRIT", "M.COM. ACCOUNTING", "M.COM.-BUSINESS ADMINISTRATION",
    "M.PED.", "M.Sc. BioTechnology", "M.Sc. BOTANY", "M.Sc. CHEMISTRY",
    "M.Sc. ENVIRONMENTAL SCIENCE", "M.Sc. MATHS", "M.Sc. PHYSICS",
    "M.Sc. ZOOLOGY", "MASTER OF SOCIAL WORK"]⟩

def scheme3 : Scheme :=
  ⟨Q.ofInt 40, Q.ofInt 50, Q.ofInt 50,
   ["M.Sc. COMPUTER SCIENCE", "BCA", "MCA", "MHRM", "PGDCA", "B.Sc.-DATA SCIENCE"]⟩

def scheme4 : Scheme := ⟨Q.ofInt 40, Q.ofInt 40, Q.ofInt 50, ["BBA", "MBA"]⟩

def scheme5 : Scheme := ⟨Q.ofInt 40, Q.ofInt 40, Q.ofInt 45, ["BBA TT"]⟩

def scheme6 : Scheme := ⟨Q.ofInt 50, Q.ofInt 50, Q.ofInt 50, ["BPT"]⟩

def scheme7 : Scheme := ⟨Q.ofInt 60, Q.ofInt 60, Q.ofInt 60, ["M.Sc. Agriculture"]⟩

def scheme8 : Scheme :=
  ⟨Q.ofInt 40, Q.ofInt 40, Q.ofInt 48,
   ["P.G. DIPLOMA IN CRIMINAL LAWS AND FORENSIC SCIENCE"]⟩

/-- The ordered scheme table. -/
def SCHEME_CONFIG : List (String × Scheme) :=
  [("scheme1", scheme1), ("scheme2", scheme2), ("scheme3", scheme3),
   ("scheme4", scheme4), ("scheme5", scheme5), ("scheme6", scheme6),
   ("scheme7", scheme7), ("scheme8", scheme8)]

/-- `get_scheme_for_course`: first scheme whose course list contains the
exact course name; `none` models the raised `ValueError`. -/
def get_scheme_for_course (course : String) : Option (String × Scheme) :=
  SCHEME_CONFIG.find? (fun p => p.2.courses.contains course)

/-! ### compute_grade_and_points (src/transformer.py lines 107-140) -/

/-- `compute_grade_and_points(percent_marks, is_practical, scheme_config)`.
In the source `scheme_config=None` defaults to scheme1 and
`is_practical` defaults to `False`; every call site passes both. -/
def compute_grade_and_points (percent_marks : Val) (is_practical : Bool)
    (scheme_config : Scheme) : String × ℤ :=
  if pyUpper (pyTrim percent_marks.pyStr) == "AB" then ("AB", 0)
  else
    match pyFloat percent_marks with
    | .exc => ("", 0)
    | .val p =>
      let min_passing :=
        if is_practical then scheme_config.practical_passing
        else scheme_config.theory_passing
      if p.ge (Q.ofInt 91) then ("O", 10)
      else if p.ge (Q.ofInt 81) then ("A+", 9)
      else if p.ge (Q.ofInt 71) then ("A", 8)
      else if p.ge (Q.ofInt 61) then ("B+", 7)
      else if p.ge (Q.ofInt 51) then ("B", 6)
      else if p.ge (Q.ofInt 41) then ("C+", 5)
      else if p.ge min_passing then ("C", 4)
      else ("F", 0)

/-! ### format_dob (src/transformer.py lines 143-182); datetime objects
cannot occur among row scalars here, so only the string branches are
live. -/

/-- `s.zfill(2)`. -/
def zfill2 (s : String) : String := ⟨padZeros s.data 2⟩

def format_dob (dob : Val) : String :=
  if !dob.truthy || pyTrim dob.pyStr == "" then ""
  else
    match dob with
    | .str s =>
      if containsChar s '/' then
        let parts := pySplitSlash s
        if parts.length == 3 then
          if (parts.getD 0 "").length == 4 then
            zfill2 (parts.getD 2 "") ++ "/" ++ zfill2 (parts.getD 1 "") ++ "/" ++ parts.getD 0 ""
          else if (parts.getD 2 "").length == 4 then
            zfill2 (parts.getD 0 "") ++ "/" ++ zfill2 (parts.getD 1 "") ++ "/" ++ parts.getD 2 ""
          else s
        else s
      else if containsChar s '-' then
        let parts := (splitChar '-' s.data).map (fun l => (⟨l⟩ : String))
        if parts.length == 3 && (parts.getD 0 "").length == 4 then
          zfill2 (parts.getD 2 "") ++ "/" ++ zfill2 (parts.getD 1 "") ++ "/" ++ parts.getD 0 ""
        else s
      else s
    | v => v.pyStr

/-! ### transform_row: direct mappings (src/transformer.py lines 203-241) -/

def directMap (row : PyDict) : PyDict :=
  let g : String → Val := fun k => dget row k (.str "")
  let nr : PyDict := []
  let nr := dset nr "ORG_NAME" (g "ORG_NAME")
  let nr := dset nr "ACADEMIC_COURSE_ID" (g "ACADEMIC_COURSE_ID")
  let nr := dset nr "COURSE_NAME" (g "COURSE_NAME")
  let nr := dset nr "ADMISSION_YEAR" (g "ADMISSION_YEAR")
  let nr := dset nr "SESSION" (g "SESSION")
  let nr := dset nr "AADHAAR_NAME" (g "AADHAAR_NAME")
  let nr := dset nr "DOB" (.str (format_dob (g "DOB")))
  let nr := dset nr "MRKS_REC_STATUS" (g "MRKS_REC_STATUS")
  let nr := dset nr "STREAM" (g "STREAM")
  let nr := dset nr "RROLL" (g "RNO")
  let nr := dset nr "REGN_NO" (g "ENO")
  let nr := dset nr "CNAME" (g "NAME")
  let nr := dset nr "FNAME" (g "FNAME")
  let nr := dset nr "MNAME" (g "MNAME")
  let nr := dset nr "GENDER" (g "SEX")
  let nr := dset nr "CASTE" (g "CAST")
  let nr := dset nr "RESULT" (g "RESULT")
  let grand_tot := pyTrim (g "GTOT").pyStr
  let nr :=
    if containsChar grand_tot '/' then
      let parts := pySplitSlash grand_tot
      let nr := dset nr "GRAND_TOT_MRKS" (.str (pyTrim (parts.getD 0 "")))
      dset nr "GRAND_TOT_MAX" (.str (pyTrim (parts.getD 1 "")))
    else
      let nr := dset nr "GRAND_TOT_MRKS" (.str grand_tot)
      dset nr "GRAND_TOT_MAX" (g "TTOT")
  let nr := dset nr "GRAND_TOT_MAX" (g "GTOT_MAX")
  let nr := dset nr "TOT_MRKS" (g "GTOT")
  let nr := dset nr "PERCENT" (g "PER")
  let nr := dset nr "ABC_ACCOUNT_ID"
    (if (g "ABCID").truthy then g "ABCID" else g "ABC_ACCOUNT_ID")
  let nr := dset nr "YEAR" (g "YEAR")
  let nr := dset nr "MONTH" (g "MONTH")
  let nr := dset nr "SEM" (g "SEM")
  dset nr "EXAM_TYPE" (g "CAT")

/-! ### transform_row: subject extraction (src/transformer.py lines
243-583).  `TState` carries the Python locals `new_row`,
`subject_counter`, `theory_subjects`, `practical_subjects` and
`subject_meta` (the latter in insertion order). -/

structure TState where
  nr : PyDict
  counter : ℕ
  theoryList : List (ℕ × PyF × PyF)
  practList : List (ℕ × PyF × PyF)
  meta : List (ℕ × String)

/-- Legacy practical subjects nested in the theory loop
(src/transformer.py lines 304-361).  The two `except` branches in the
source are unreachable (`pd.to_numeric(…, errors="coerce")` does not
raise on scalars and numpy scalar division does not raise), so they are
not modelled. -/
def prsubStep (row : PyDict) (i : ℕ) (st : TState) : TState :=
  let prsub := dget row ("PRSUB" ++ natRepr i) (.str "")
  if prsub.notna && !(pyTrim prsub.pyStr == "") then
    let sub_idx := st.counter
    let pract_tot := pyTrim (dget row ("P" ++ natRepr i) (.str "")).pyStr
    let nr := dset st.nr (subKey sub_idx "NM") (.str (pyTrim prsub.pyStr))
    let nr := dset nr (subKey sub_idx "")
      (.str (pyTrim (dget row ("PR" ++ natRepr i) (.str "")).pyStr))
    let res : PyDict × PyF × PyF :=
      if containsChar pract_tot '/' then
        let parts := pySplitSlash pract_tot
        let p0 := pyTrim (parts.getD 0 "")
        let p1 := pyTrim (parts.getD 1 "")
        let pract_marks := toNumeric (.str p0)
        let pract_max := toNumeric (.str p1)
        let converted := PyF.mul (PyF.div pract_marks pract_max) (some (Q.ofInt 100))
        let nr := dset nr (subKey sub_idx "_PR_MRKS") (.str p0)
        let nr := dset nr (subKey sub_idx "_PR_MAX") (.str p1)
        let nr := dset nr (subKey sub_idx "_TOT") (Val.ofPyF pract_marks)
        let nr := dset nr (subKey sub_idx "_PERCENT")
          (if converted.isSome then Val.ofPyF (PyF.round2 converted) else .str "")
        (nr, pract_marks, pract_max)
      else
        let pract_marks := toNumeric (.str pract_tot)
        let converted := PyF.mul (PyF.div pract_marks (some (Q.ofInt 50))) (some (Q.ofInt 100))
        let nr := dset nr (subKey sub_idx "_PR_MRKS") (.str pract_tot)
        let nr := dset nr (subKey sub_idx "_PR_MAX") (.num (Q.ofInt 50))
        let nr := dset nr (subKey sub_idx "_TOT") (Val.ofPyF pract_marks)
        let nr := dset nr (subKey sub_idx "_PERCENT")
          (if converted.isSome then Val.ofPyF (PyF.round2 converted) else .str "")
        (nr, pract_marks, some (Q.ofInt 50))
    let nr := res.1
    let nr := dset nr (subKey sub_idx "_TH_MAX") (.str "")
    let nr := dset nr (subKey sub_idx "_CE_MAX") (.str "")
    let nr := dset nr (subKey sub_idx "_TH_MRKS") (.str "")
    let nr := dset nr (subKey sub_idx "_CE_MRKS") (.str "")
    let nr := dset nr (subKey sub_idx "_GRADE") (.str "")
    let nr := dset nr (subKey sub_idx "_GRADE_POINTS") (.str "")
    let nr := dset nr (subKey sub_idx "_CREDIT") (dget row ("CH" ++ natRepr sub_idx) (.str ""))
    let nr := dset nr (subKey sub_idx "_CREDIT_POINTS") (.str "")
    let pr :=
      if res.2.1.isSome && res.2.2.isSome
      then st.practList ++ [(sub_idx, res.2.1, res.2.2)]
      else st.practList
    ⟨nr, sub_idx + 1, st.theoryList, pr, st.meta ++ [(sub_idx, "practical")]⟩
  else st

/-- Theory subjects (src/transformer.py lines 249-302), each followed by
its legacy practical (lines 304-361). -/
def theoryStep (row : PyDict) (i : ℕ) (st : TState) : TState :=
  let sub_name := pyTrim (dget row ("TIT" ++ natRepr i) (.str "")).pyStr
  let sub_detail := pyTrim (dget row ("SUB" ++ natRepr i) (.str "")).pyStr
  let sub_code := pyTrim (dget row ("COD" ++ natRepr i) (.str "")).pyStr
  if sub_name == "" && sub_detail == "" then st
  else
    let sub_idx := st.counter
    let th_marks := dget row ("EA" ++ natRepr i) (.str "")
    let ce_marks := dget row ("IA" ++ natRepr i) (.str "")
    let total_max_marks := dget row ("T" ++ natRepr i ++ "_MAX") (.str "")
    let use_total_max := total_max_marks.truthy
      && !(["", "nan", "None"].contains (pyTrim total_max_marks.pyStr))
    let res : PyF × PyF × PyDict :=
      if use_total_max then
        let ct := toNumeric (dget row ("T" ++ natRepr i) (.str ""))
        let nr := dset st.nr (subKey sub_idx "_TH_MAX") (.str "")
        let nr := dset nr (subKey sub_idx "_CE_MAX") (.str "")
        let nr := dset nr (subKey sub_idx "_TH_MRKS")
          (if th_marks.inStrs [""] then .str "" else th_marks)
        let nr := dset nr (subKey sub_idx "_CE_MRKS")
          (if ce_marks.inStrs [""] then .str "" else ce_marks)
        let mm : PyF :=
          match pyFloat total_max_marks with
          | .val x => x
          | .exc => some (Q.ofInt 100)
        (ct, mm, nr)
      else
        let ct : PyF :=
          match (if th_marks.inStrs ["", "AB"] then FRes.val (some (Q.ofInt 0)) else pyFloat th_marks),
                (if ce_marks.inStrs ["", "AB"] then FRes.val (some (Q.ofInt 0)) else pyFloat ce_marks) with
          | .val a, .val b => PyF.add a b
          | _, _ => toNumeric (dget row ("T" ++ natRepr i) (.str ""))
        let nr := dset st.nr (subKey sub_idx "_TH_MAX") (.num (Q.ofInt 70))
        let nr := dset nr (subKey sub_idx "_CE_MAX") (.num (Q.ofInt 30))
        let nr := dset nr (subKey sub_idx "_TH_MRKS") th_marks
        let nr := dset nr (subKey sub_idx "_CE_MRKS") ce_marks
        (ct, some (Q.ofInt 100), nr)
    let calculated_total := res.1
    let max_marks := res.2.1
    let nr := res.2.2
    let nr := dset nr (subKey sub_idx "NM") (.str sub_detail)
    let nr := dset nr (subKey sub_idx "") (.str sub_code)
    let nr := dset nr (subKey sub_idx "_PR_MAX")
      (if use_total_max then total_max_marks else .str "")
    let nr := dset nr (subKey sub_idx "_PR_MRKS")
      (if use_total_max then Val.ofPyF calculated_total else .str "")
    let nr := dset nr (subKey sub_idx "_TOT") (Val.ofPyF calculated_total)
    let nr := dset nr (subKey sub_idx "_PERCENT")
      (if max_marks.gt (Q.ofInt 0)
       then Val.ofPyF (PyF.mul (PyF.div calculated_total max_marks) (some (Q.ofInt 100)))
       else .num (Q.ofInt 0))
    let nr := dset nr (subKey sub_idx "_GRADE") (.str "")
    let nr := dset nr (subKey sub_idx "_GRADE_POINTS") (.str "")
    let nr := dset nr (subKey sub_idx "_CREDIT") (dget row ("CH" ++ natRepr sub_idx) (.str ""))
    let nr := dset nr (subKey sub_idx "_CREDIT_POINTS") (.str "")
    let nr := dset nr (subKey sub_idx "_TOTAL_MAX")
      (if use_total_max then total_max_marks else .str "")
    let st1 : TState :=
      ⟨nr, sub_idx + 1, st.theoryList ++ [(sub_idx, calculated_total, max_marks)],
       st.practList, st.meta ++ [(sub_idx, "theory")]⟩
    prsubStep row i st1

/-- Modern (`CODP`-style) practical subjects (src/transformer.py lines
364-484). -/
def modernStep (row : PyDict) (i : ℕ) (st : TState) : TState :=
  let sub_code_p := pyTrim (dget row ("CODP" ++ natRepr i) (.str "")).pyStr
  let sub_detail_p := pyTrim (dget row ("SUBP" ++ natRepr i) (.str "")).pyStr
  if sub_code_p == "" && sub_detail_p == "" then st
  else
    let sub_idx := st.counter
    let eap_marks := dget row ("EAP" ++ natRepr i) (.str "")
    let eap_max := dget row ("EAP" ++ natRepr i ++ "_MAX") (.str "")
    let iap_marks := dget row ("IAP" ++ natRepr i) (.str "")
    let iap_max := dget row ("IAP" ++ natRepr i ++ "_MAX") (.str "")
    let p_total := dget row ("P" ++ natRepr i) (.str "")
    let p_max := dget row ("P" ++ natRepr i ++ "_MAX") (.str "")
    let has_separate_max :=
      !(["", "nan", "None"].contains (pyTrim eap_max.pyStr))
      || !(["", "nan", "None"].contains (pyTrim iap_max.pyStr))
      || !(["", "nan", "None"].contains (pyTrim p_max.pyStr))
    if has_separate_max then
      -- total_max (lines 400-409): inner try/except chain, never escapes.
      let totalMaxCalc : PyF :=
        if p_max.inStrs [""] then some (Q.ofInt 200)
        else
          match pyFloat p_max with
          | .val x => x
          | .exc =>
            match (if eap_max.inStrs [""] then FRes.val (some (Q.ofInt 0)) else pyFloat eap_max),
                  (if iap_max.inStrs [""] then FRes.val (some (Q.ofInt 0)) else pyFloat iap_max) with
            | .val a, .val b =>
              let s := PyF.add a b
              if s.gt (Q.ofInt 0) then s else some (Q.ofInt 200)
            | _, _ => some (Q.ofInt 200)
      -- outer try (lines 390-412) / except (lines 414-417)
      let eapR := if eap_marks.inStrs ["", "AB"] then FRes.val (some (Q.ofInt 0)) else pyFloat eap_marks
      let iapR := if iap_marks.inStrs ["", "AB"] then FRes.val (some (Q.ofInt 0)) else pyFloat iap_marks
      let useP := p_total.truthy && !(["", "nan", "None"].contains (pyTrim p_total.pyStr))
      let ctpR : FRes :=
        match eapR, iapR with
        | .val a, .val b => if useP then pyFloat p_total else .val (PyF.add a b)
        | _, _ => .exc
      let res : PyF × PyF × PyF :=
        match ctpR with
        | .val c =>
          let tm := totalMaxCalc
          let pm := if tm.gt (Q.ofInt 0)
                    then PyF.mul (PyF.div c tm) (some (Q.ofInt 100)) else c
          (c, tm, pm)
        | .exc =>
          let c := if p_total.truthy then toNumeric p_total else some (Q.ofInt 0)
          (c, some (Q.ofInt 200), c)
      let calculated_total_p := res.1
      let total_max := res.2.1
      let percent_marks := res.2.2
      let nr := dset st.nr (subKey sub_idx "NM") (.str sub_detail_p)
      let nr := dset nr (subKey sub_idx "") (.str sub_code_p)
      let nr := dset nr (subKey sub_idx "_TH_MAX")
        (if ["", "nan", "None"].contains (pyTrim eap_max.pyStr) then .str "" else eap_max)
      let nr := dset nr (subKey sub_idx "_CE_MAX")
        (if ["", "nan", "None"].contains (pyTrim iap_max.pyStr) then .str "" else iap_max)
      let nr := dset nr (subKey sub_idx "_TH_MRKS")
        (if ["", "None"].contains (pyTrim eap_marks.pyStr) then .str "" else eap_marks)
      let nr := dset nr (subKey sub_idx "_CE_MRKS")
        (if ["", "None"].contains (pyTrim iap_marks.pyStr) then .str "" else iap_marks)
      let nr := dset nr (subKey sub_idx "_PR_MAX")
        (if ["", "nan", "None"].contains (pyTrim p_max.pyStr) then Val.ofPyF total_max else p_max)
      let nr := dset nr (subKey sub_idx "_PR_MRKS") (Val.ofPyF calculated_total_p)
      let nr := dset nr (subKey sub_idx "_TOT") (Val.ofPyF calculated_total_p)
      let nr := dset nr (subKey sub_idx "_PERCENT") (Val.ofPyF percent_marks)
      let nr := dset nr (subKey sub_idx "_GRADE") (.str "")
      let nr := dset nr (subKey sub_idx "_GRADE_POINTS") (.str "")
      let nr := dset nr (subKey sub_idx "_CREDIT")
        (if dcontains row ("CH" ++ natRepr (i + 2))
         then dget row ("CH" ++ natRepr (i + 2)) (.str "")
         else dget row ("CHP" ++ natRepr i) (.str ""))
      let nr := dset nr (subKey sub_idx "_CREDIT_POINTS") (.str "")
      let nr := dset nr (subKey sub_idx "_TOTAL_MAX") (Val.ofPyF total_max)
      let pr := if percent_marks.gt (Q.ofInt 0)
                then st.practList ++ [(sub_idx, percent_marks, some (Q.ofInt 100))]
                else st.practList
      ⟨nr, sub_idx + 1, st.theoryList, pr, st.meta ++ [(sub_idx, "practical_with_max")]⟩
    else
      let th_marks_p := dget row ("EAP" ++ natRepr i) (.str "")
      let ce_marks_p := dget row ("IAP" ++ natRepr i) (.str "")
      let total_p := dget row ("TP" ++ natRepr i) (.str "")
      let calculated_total_p : PyF :=
        match (if th_marks_p.inStrs ["", "AB"] then FRes.val (some (Q.ofInt 0)) else pyFloat th_marks_p),
              (if ce_marks_p.inStrs ["", "AB"] then FRes.val (some (Q.ofInt 0)) else pyFloat ce_marks_p) with
        | .val a, .val b => PyF.add a b
        | _, _ => toNumeric total_p
      let nr := dset st.nr (subKey sub_idx "NM") (.str sub_detail_p)
      let nr := dset nr (subKey sub_idx "") (.str sub_code_p)
      let nr := dset nr (subKey sub_idx "_TH_MAX") (.num (Q.ofInt 70))
      let nr := dset nr (subKey sub_idx "_CE_MAX") (.num (Q.ofInt 30))
      let nr := dset nr (subKey sub_idx "_TH_MRKS") th_marks_p
      let nr := dset nr (subKey sub_idx "_CE_MRKS") ce_marks_p
      let nr := dset nr (subKey sub_idx "_PR_MAX") (.str "")
      let nr := dset nr (subKey sub_idx "_PR_MRKS") (.str "")
      let nr := dset nr (subKey sub_idx "_TOT") (Val.ofPyF calculated_total_p)
      let nr := dset nr (subKey sub_idx "_PERCENT") (Val.ofPyF calculated_total_p)
      let nr := dset nr (subKey sub_idx "_GRADE") (.str "")
      let nr := dset nr (subKey sub_idx "_GRADE_POINTS") (.str "")
      let nr := dset nr (subKey sub_idx "_CREDIT") (dget row ("CHP" ++ natRepr i) (.str ""))
      let nr := dset nr (subKey sub_idx "_CREDIT_POINTS") (.str "")
      let nr := dset nr (subKey sub_idx "_TOTAL_MAX") (.str "")
      -- lines 477-481: float(calculated_total_p) never raises (it is numeric)
      let pr := st.practList ++ [(sub_idx, calculated_total_p, some (Q.ofInt 100))]
      ⟨nr, sub_idx + 1, st.theoryList, pr, st.meta ++ [(sub_idx, "practical_no_grace")]⟩

/-- Project subjects (src/transformer.py lines 487-568). -/
def projectStep (row : PyDict) (i : ℕ) (st : TState) : TState :=
  let proj_code := pyTrim (dget row ("CODPROJ" ++ natRepr i) (.str "")).pyStr
  let proj_name := pyTrim (dget row ("SUBPROJ" ++ natRepr i) (.str "")).pyStr
  let internal_marks := dget row ("IPROJ" ++ natRepr i) (.str "")
  let external_marks := dget row ("EPROJ" ++ natRepr i) (.str "")
  let total_proj_marks := dget row ("PROJ" ++ natRepr i) (.str "")
  let proj_max_marks : Val :=
    if dcontains row ("PROJMAX" ++ natRepr i) then dget row ("PROJMAX" ++ natRepr i) (.str "")
    else if dcontains row ("PROJMAX " ++ natRepr i) then dget row ("PROJMAX " ++ natRepr i) (.str "")
    else .str ""
  let project_credit := dget row ("CHPROJ" ++ natRepr i) (.str "")
  if proj_code == "" && proj_name == ""
     && pyTrim internal_marks.pyStr == "" && pyTrim external_marks.pyStr == "" then st
  else
    let sub_idx := st.counter
    let useT := total_proj_marks.truthy
      && !(["", "nan", "None"].contains (pyTrim total_proj_marks.pyStr))
    -- lines 511-526: on any failure the except handler retries
    -- float(total_proj_marks) and finally falls back to 0
    let fromT : PyF :=
      match pyFloat total_proj_marks with
      | .val x => x
      | .exc => some (Q.ofInt 0)
    let calculated_total_proj : PyF :=
      match (if internal_marks.inStrs ["", "AB"] then FRes.val (some (Q.ofInt 0)) else pyFloat internal_marks),
            (if external_marks.inStrs ["", "AB"] then FRes.val (some (Q.ofInt 0)) else pyFloat external_marks) with
      | .val a, .val b => if useT then fromT else PyF.add a b
      | _, _ => if useT then fromT else some (Q.ofInt 0)
    let proj_max : PyF :=
      if proj_max_marks.inStrs [""] then some (Q.ofInt 200)
      else
        match pyFloat proj_max_marks with
        | .val x => x
        | .exc => some (Q.ofInt 200)
    let percent_marks : PyF :=
      if proj_max.gt (Q.ofInt 0)
      then PyF.mul (PyF.div calculated_total_proj proj_max) (some (Q.ofInt 100))
      else calculated_total_proj
    let nr := dset st.nr (subKey sub_idx "NM")
      (.str (if proj_name == "" then "PROJECT" else proj_name))
    let nr := dset nr (subKey sub_idx "")
      (.str (if proj_code == "" then "PROJ" ++ natRepr i else proj_code))
    let nr := dset nr (subKey sub_idx "_TH_MAX") (.str "")
    let nr := dset nr (subKey sub_idx "_CE_MAX") (.str "150")
    let nr := dset nr (subKey sub_idx "_TH_MRKS") (.str "")
    let nr := dset nr (subKey sub_idx "_CE_MRKS")
      (if ["", "None"].contains (pyTrim external_marks.pyStr) then .str "" else external_marks)
    let nr := dset nr (subKey sub_idx "_PR_MAX") (.str "50")
    let nr := dset nr (subKey sub_idx "_PR_MRKS")
      (if ["", "None"].contains (pyTrim internal_marks.pyStr) then .str "" else internal_marks)
    let nr := dset nr (subKey sub_idx "_TOT") (Val.ofPyF calculated_total_proj)
    let nr := dset nr (subKey sub_idx "_PERCENT") (Val.ofPyF percent_marks)
    let nr := dset nr (subKey sub_idx "_GRADE") (.str "")
    let nr := dset nr (subKey sub_idx "_GRADE_POINTS") (.str "")
    let nr := dset nr (subKey sub_idx "_CREDIT") project_credit
    let nr := dset nr (subKey sub_idx "_CREDIT_POINTS") (.str "")
    let nr := dset nr (subKey sub_idx "_TOTAL_MAX") (Val.ofPyF proj_max)
    let pr := if calculated_total_proj.gt (Q.ofInt 0) && proj_max.gt (Q.ofInt 0)
              then st.practList ++ [(sub_idx, percent_marks, some (Q.ofInt 100))]
              else st.practList
    ⟨nr, sub_idx + 1, st.theoryList, pr, st.meta ++ [(sub_idx, "project")]⟩

/-- Due papers (src/transformer.py lines 571-583).  The `row.get`
default is `None`, so a missing key skips the index. -/
def dueStep (row : PyDict) (i : ℕ) (st : TState) : TState :=
  if dcontains row ("DP" ++ natRepr i) then
    let due_paper := dget row ("DP" ++ natRepr i) (.str "")
    if due_paper.notna
       && !(["", "nan", "none"].contains (pyLower (pyTrim due_paper.pyStr))) then
      let sub_idx := st.counter
      let nr := dset st.nr (subKey sub_idx "NM") (.str "DUE OF PREVIOUS SEM")
      let nr := dset nr (subKey sub_idx "") (.str (pyTrim due_paper.pyStr))
      let nr := dset nr (subKey sub_idx "_CREDIT") (dget row ("DCR" ++ natRepr i) (.str ""))
      let due_total := toNumeric (dget row ("DPM" ++ natRepr i) (.str ""))
      let nr := dset nr (subKey sub_idx "_TOT")
        (if due_total.isSome then Val.ofPyF due_total else .str "")
      let nr := dset nr (subKey sub_idx "_PERCENT")
        (if due_total.isSome then Val.ofPyF due_total else .str "")
      let nr := dset nr "REMARKS" (dget row ("DPR" ++ natRepr i) (.str ""))
      ⟨nr, sub_idx + 1, st.theoryList, st.practList, st.meta ++ [(sub_idx, "due")]⟩
    else st
  else st

/-- The indices 1..19 iterated by every extraction loop. -/
def idxRange : List ℕ := List.range' 1 19

/-- All four extraction loops in source order. -/
def buildSubjects (row : PyDict) (nr0 : PyDict) : TState :=
  let st0 : TState := ⟨nr0, 1, [], [], []⟩
  let st1 := idxRange.foldl (fun st i => theoryStep row i st) st0
  let st2 := idxRange.foldl (fun st i => modernStep row i st) st1
  let st3 := idxRange.foldl (fun st i => projectStep row i st) st2
  idxRange.foldl (fun st i => dueStep row i st) st3

/-! ### transform_row: grace marks (src/transformer.py lines 585-657) -/

/-- `total_theory_max = sum(max_marks for … in theory_subjects)`. -/
def theoryMaxSum (tl : List (ℕ × PyF × PyF)) : PyF :=
  tl.foldl (fun a t => PyF.add a t.2.2) (some (Q.ofInt 0))

/-- `grace_limit = min(total_theory_max * 0.01, 6)` (lines 586-587). -/
def graceLimit0 (tl : List (ℕ × PyF × PyF)) : PyF :=
  PyF.minC (PyF.mul (theoryMaxSum tl) (some ⟨1, 100, by decide⟩)) (Q.ofInt 6)

/-- Failing theory subjects (lines 591-600).  `float(tot_marks)` never
raises (the stored total is numeric), `percent = marks/max*100` when
`max > 0` else `0`, and a NaN percent compares false. -/
def failedSubjects (tl : List (ℕ × PyF × PyF)) (thp : Q) : List (ℕ × PyF × PyF) :=
  tl.filter (fun t =>
    let percent : PyF :=
      if t.2.2.gt (Q.ofInt 0)
      then PyF.mul (PyF.div t.2.1 t.2.2) (some (Q.ofInt 100))
      else some (Q.ofInt 0)
    percent.lt thp)

/-- A failing subject's `max(0, min_percent*max_marks - marks)` (lines
605-607 and 652-653); `min_percent = theory_passing/100` since only
theory subjects are in the failed list. -/
def neededOf (thp : Q) (t : ℕ × PyF × PyF) : Q :=
  PyF.max0 (PyF.sub (PyF.mul (some (thp.div (Q.ofInt 100))) t.2.2) t.2.1)

/-- `shortfall` (lines 602-607). -/
def shortfallOf (failed : List (ℕ × PyF × PyF)) (thp : Q) : Q :=
  failed.foldl (fun acc t => acc.add (neededOf thp t)) (Q.ofInt 0)

/-- Initialise `SUB{i}_GRACE = "G-0"` for theory subjects (lines
609-612). -/
def graceInit (meta : List (ℕ × String)) (nr : PyDict) : PyDict :=
  meta.foldl
    (fun nr p => if p.2 == "theory" then dset nr (subKey p.1 "_GRACE") (.str "G-0") else nr)
    nr

/-- The `allow_grace` gate (lines 614-641).  The whole computation sits
in a try/except whose handler sets `allow_grace = True`:
`float(row.get("GTOT_MAX", 0))` raising, or the un-coerced
`row.get("GTOT", "")` being a string (`str / float` is a TypeError),
both land in the handler.  A NaN aggregate percent compares false, so a
NaN GTOT yields False.  When the maximum is not > 0 the gate is opened
(the debug print may then raise a NameError on `percent`, which the
handler also turns into True). -/
def allowGraceOf (row : PyDict) (sc : Scheme) : Bool :=
  match pyFloat (dget row "GTOT_MAX" (.num (Q.ofInt 0))) with
  | .exc => true
  | .val gtx =>
    if gtx.gt (Q.ofInt 0) then
      match dget row "GTOT" (.str "") with
      | .str _ => true
      | .num m =>
        PyF.ge (PyF.mul (PyF.div (some m) gtx) (some (Q.ofInt 100))) sc.aggregate_passing
      | .nan => false
    else true

/-- One iteration of the distribution loop (lines 647-657): skip
non-theory kinds (unreachable, the failed list is all theory), give
`min(needed, grace_limit)` when both are positive, decrement the limit
and record the annotation; the third component observes the running
total handed out. -/
def distStep (meta : List (ℕ × String)) (thp : Q) (acc : PyDict × Q × Q)
    (t : ℕ × PyF × PyF) : PyDict × Q × Q :=
  let kind := (meta.find? (fun p => p.1 == t.1)).map (fun p => p.2)
  if kind == some "practical_no_grace" || kind == some "practical"
     || kind == some "practical_with_max" || kind == some "project" then acc
  else
    let needed := neededOf thp t
    if (Q.ofInt 0).blt needed && (Q.ofInt 0).blt acc.2.1 then
      let grace_given := if acc.2.1.blt needed then acc.2.1 else needed
      (dset acc.1 (subKey t.1 "_GRACE") (.str ("G-" ++ intRepr (Q.roundHE grace_given))),
       acc.2.1.sub grace_given, acc.2.2.add grace_given)
    else acc

/-- The distribution loop (lines 646-657).  Returns the updated row,
the remaining limit and (as an observer) the total grace handed out. -/
def distributeGrace (failed : List (ℕ × PyF × PyF)) (meta : List (ℕ × String)) (thp : Q)
    (nr : PyDict) (limit : Q) : PyDict × Q × Q :=
  failed.foldl (distStep meta thp) (nr, limit, Q.ofInt 0)

/-- The whole grace phase; second component is the total distributed
grace (0 when the distribution does not run). -/
def graceStage (row : PyDict) (sc : Scheme) (st : TState) : PyDict × Q :=
  let limit := graceLimit0 st.theoryList
  let thp := sc.theory_passing
  let failed := failedSubjects st.theoryList thp
  let sf := shortfallOf failed thp
  let nr := graceInit st.meta st.nr
  if allowGraceOf row sc && PyF.leOf sf limit then
    match limit with
    | some l =>
      let r := distributeGrace failed st.meta thp nr l
      (r.1, r.2.2)
    | none => (nr, Q.ofInt 0)
  else (nr, Q.ofInt 0)

/-! ### transform_row: grades, credits (src/transformer.py lines
659-713) -/

/-- `int(x)` for a positive float: truncation toward zero. -/
def Q.truncZ (q : Q) : ℤ := Int.tdiv q.n q.d

structure GradeAcc where
  nr : PyDict
  total_credits : PyF
  total_credit_points : PyF

/-- Line 694: kinds graded against the practical threshold.  Note that
`practical_no_grace` is NOT in this list. -/
def isPracticalKind (kind : String) : Bool :=
  kind == "practical" || kind == "practical_with_max" || kind == "project"

/-- One iteration of the grade loop for subject `idx` of kind `kind`. -/
def gradeStep (sc : Scheme) (acc : GradeAcc) (p : ℕ × String) : GradeAcc :=
  let idx := p.1
  let kind := p.2
  let percent_marks0 := dget acc.nr (subKey idx "_PERCENT") (.str "")
  let grace_str := dget acc.nr (subKey idx "_GRACE") (.str "")
  let grace_val : PyF :=
    match grace_str with
    | .str s =>
      if startsWithGDash s then
        match pyFloat (.str ⟨removeGDash s.data⟩) with
        | .val x => x
        | .exc => some (Q.ofInt 0)
      else some (Q.ofInt 0)
    | _ => some (Q.ofInt 0)
  let nr :=
    if grace_val.gt (Q.ofInt 0) then
      dset acc.nr (subKey idx "_GRACE")
        (.str ("G-" ++ intRepr (Q.truncZ (grace_val.getD (Q.ofInt 0)))))
    else dset acc.nr (subKey idx "_GRACE") (.str "")
  -- lines 682-691: for graced theory subjects add the grace percentage;
  -- any exception inside the try leaves percent_marks unchanged
  let percent_marks : Val :=
    if kind == "theory" && grace_val.gt (Q.ofInt 0) then
      match pyFloat (dget nr (subKey idx "_TH_MAX") (.num (Q.ofInt 100))),
            pyFloat (dget nr (subKey idx "_CE_MAX") (.num (Q.ofInt 0))) with
      | .val thm, .val cem =>
        let total_max : PyF := if cem.gt (Q.ofInt 0) then PyF.add thm cem else some (Q.ofInt 100)
        let grace_percent := PyF.mul (PyF.div grace_val total_max) (some (Q.ofInt 100))
        match pyFloat percent_marks0 with
        | .val pv => Val.ofPyF (PyF.add pv grace_percent)
        | .exc => percent_marks0
      | _, _ => percent_marks0
    else percent_marks0
  let gr := compute_grade_and_points percent_marks (isPracticalKind kind) sc
  let nr := dset nr (subKey idx "_GRADE") (.str gr.1)
  let nr := dset nr (subKey idx "_GRADE_POINTS") (.num (Q.ofInt gr.2))
  let credit : PyF :=
    match pyFloat (dget nr (subKey idx "_CREDIT") (.num (Q.ofInt 0))) with
    | .val x => x
    | .exc => some (Q.ofInt 0)
  let credit_points := PyF.mul (some (Q.ofInt gr.2)) credit
  let nr := dset nr (subKey idx "_CREDIT_POINTS") (Val.ofPyF credit_points)
  ⟨nr, PyF.add acc.total_credits credit, PyF.add acc.total_credit_points credit_points⟩

/-! ### transform_row: SGPA and result (src/transformer.py lines
715-739) -/

def finishRow (sc : Scheme) (acc : GradeAcc) : PyDict :=
  if acc.total_credits.gt (Q.ofInt 0) then
    let nr := dset acc.nr "TOT_CREDIT" (Val.ofPyF acc.total_credits)
    let nr := dset nr "TOT_CREDIT_POINTS" (Val.ofPyF acc.total_credit_points)
    let sgpa := PyF.div acc.total_credit_points acc.total_credits
    let nr := dset nr "SGPA" (Val.ofPyF (PyF.round2 sgpa))
    match pyFloat (dget nr "GRAND_TOT_MRKS" (.num (Q.ofInt 0))),
          pyFloat (dget nr "GRAND_TOT_MAX" (.num (Q.ofInt 0))) with
    | .val gm, .val gx =>
      if gx.gt (Q.ofInt 0) then
        let percent := PyF.mul (PyF.div gm gx) (some (Q.ofInt 100))
        if percent.ge sc.aggregate_passing && sgpa.ge (Q.ofInt 4)
        then dset nr "RESULT" (.str "PASS")
        else dset nr "RESULT" (.str "FAIL")
      else nr
    | _, _ => nr
  else
    let nr := dset acc.nr "TOT_CREDIT" (.num (Q.ofInt 0))
    let nr := dset nr "TOT_CREDIT_POINTS" (.num (Q.ofInt 0))
    dset nr "SGPA" (.num (Q.ofInt 0))

/-- The subject-extraction state of a row. -/
def prepOf (row : PyDict) : TState := buildSubjects row (directMap row)

/-- The grade-loop result of a row. -/
def gradedOf (row : PyDict) (sc : Scheme) : GradeAcc :=
  let st := prepOf row
  st.meta.foldl (gradeStep sc)
    ⟨(graceStage row sc st).1, some (Q.ofInt 0), some (Q.ofInt 0)⟩

/-- `transform_row(row, scheme_config)` (src/transformer.py lines
185-741). -/
def transform_row (row : PyDict) (sc : Scheme) : PyDict :=
  finishRow sc (gradedOf row sc)

/-- Observer: the total grace distributed while transforming a row. -/
def graceTotalGiven (row : PyDict) (sc : Scheme) : Q :=
  (graceStage row sc (prepOf row)).2

/-! ### Statement helpers -/

/-- The output field `k` holds a number semantically equal to `x`. -/
def fieldIsNum (d : PyDict) (k : String) (x : Q) : Bool :=
  match dget d k (.str "") with
  | .num q => q.beq x
  | _ => false

/-- The output field `k` holds exactly the string `s`. -/
def fieldIsStr (d : PyDict) (k : String) (s : String) : Bool :=
  match dget d k (.num (Q.ofInt 0)) with
  | .str t => t == s
  | _ => false

/-- One grade-loop iteration as a function of the five row cells it
reads for its subject (percent, grace, theory max, internal max,
credit); `gradeStep` is proved to factor through this. -/
structure Cells where
  graceOut : Val
  grade : String
  gp : ℤ
  credit : PyF
  creditPoints : PyF

def gradeCells (sc : Scheme) (kind : String)
    (percentV graceV thmV cemV creditV : Val) : Cells :=
  let grace_val : PyF :=
    match graceV with
    | .str s =>
      if startsWithGDash s then
        match pyFloat (.str ⟨removeGDash s.data⟩) with
        | .val x => x
        | .exc => some (Q.ofInt 0)
      else some (Q.ofInt 0)
    | _ => some (Q.ofInt 0)
  let graceOut : Val :=
    if grace_val.gt (Q.ofInt 0)
    then .str ("G-" ++ intRepr (Q.truncZ (grace_val.getD (Q.ofInt 0))))
    else .str ""
  let percent_marks : Val :=
    if kind == "theory" && grace_val.gt (Q.ofInt 0) then
      match pyFloat thmV, pyFloat cemV with
      | .val thm, .val cem =>
        let total_max : PyF :=
          if cem.gt (Q.ofInt 0) then PyF.add thm cem else some (Q.ofInt 100)
        let grace_percent := PyF.mul (PyF.div grace_val total_max) (some (Q.ofInt 100))
        match pyFloat percentV with
        | .val pv => Val.ofPyF (PyF.add pv grace_percent)
        | .exc => percentV
      | _, _ => percentV
    else percentV
  let gr := compute_grade_and_points percent_marks (isPracticalKind kind) sc
  let credit : PyF :=
    match pyFloat creditV with
    | .val x => x
    | .exc => some (Q.ofInt 0)
  ⟨graceOut, gr.1, gr.2, credit, PyF.mul (some (Q.ofInt gr.2)) credit⟩

/-- The grade-loop cells of subject `idx` read from dictionary `nr`. -/
def gradeCellsAt (sc : Scheme) (nr : PyDict) (idx : ℕ) (kind : String) : Cells :=
  gradeCells sc kind
    (dget nr (subKey idx "_PERCENT") (.str ""))
    (dget nr (subKey idx "_GRACE") (.str ""))
    (dget nr (subKey idx "_TH_MAX") (.num (Q.ofInt 100)))
    (dget nr (subKey idx "_CE_MAX") (.num (Q.ofInt 0)))
    (dget nr (subKey idx "_CREDIT") (.num (Q.ofInt 0)))

/-- Numeric value of a digit list under a starting accumulator. -/
def digitsValFrom (a : ℕ) (l : List Char) : ℕ :=
  l.foldl (fun a c => a * 10 + (digitVal c).getD 0) a

/-- The first character, if any, is not a decimal digit.  Holds for
every output-key suffix (`""`, `"NM"`, `"_TOT"`, …) and separates the
digit block of a `subKey` from its surroundings. -/
def headNonDigit (s : String) : Bool :=
  match s.data.head? with
  | none => true
  | some c => (digitVal c).isNone

/-! ### Claim-side definitions (each written from the claim's words, to
be compared with the source embedding) -/

/-- Claim C1's threshold table: the practical-passing value for subjects
classified practical, practical_with_max, practical_no_grace or
project; the theory-passing value for theory or due. -/
def claimPassingThreshold (kind : String) (sc : Scheme) : Q :=
  if kind == "practical" || kind == "practical_with_max"
     || kind == "practical_no_grace" || kind == "project"
  then sc.practical_passing else sc.theory_passing

/-- Claim C1's grade function: the eight-band table over the subject's
percent with `claimPassingThreshold`, the "AB" short-circuit, and the
silent degrade of other non-numeric input. -/
def claimGradeAndPoints (pm : Val) (kind : String) (sc : Scheme) : String × ℤ :=
  if pyUpper (pyTrim pm.pyStr) == "AB" then ("AB", 0)
  else
    match pyFloat pm with
    | .exc => ("", 0)
    | .val p =>
      let min_passing := claimPassingThreshold kind sc
      if p.ge (Q.ofInt 91) then ("O", 10)
      else if p.ge (Q.ofInt 81) then ("A+", 9)
      else if p.ge (Q.ofInt 71) then ("A", 8)
      else if p.ge (Q.ofInt 61) then ("B+", 7)
      else if p.ge (Q.ofInt 51) then ("B", 6)
      else if p.ge (Q.ofInt 41) then ("C+", 5)
      else if p.ge min_passing then ("C", 4)
      else ("F", 0)

/-- Amended C1 threshold table: as the claim says, except that a
`practical_no_grace` subject is graded against the THEORY threshold
(the code's line 694 omits it from the practical list). -/
def amendedPassingThreshold (kind : String) (sc : Scheme) : Q :=
  if kind == "practical" || kind == "practical_with_max" || kind == "project"
  then sc.practical_passing else sc.theory_passing

/-- Amended C1 grade function. -/
def claimGradeAmended (pm : Val) (kind : String) (sc : Scheme) : String × ℤ :=
  if pyUpper (pyTrim pm.pyStr) == "AB" then ("AB", 0)
  else
    match pyFloat pm with
    | .exc => ("", 0)
    | .val p =>
      let min_passing := amendedPassingThreshold kind sc
      if p.ge (Q.ofInt 91) then ("O", 10)
      else if p.ge (Q.ofInt 81) then ("A+", 9)
      else if p.ge (Q.ofInt 71) then ("A", 8)
      else if p.ge (Q.ofInt 61) then ("B+", 7)
      else if p.ge (Q.ofInt 51) then ("B", 6)
      else if p.ge (Q.ofInt 41) then ("C+", 5)
      else if p.ge min_passing then ("C", 4)
      else ("F", 0)

/-- A row with one modern-format practical subject, no max columns
(classified `practical_no_grace`), scoring 38 of 100. -/
def rowPNG : PyDict :=
  [("CODP1", .str "PCODE"), ("SUBP1", .str "PRAC"), ("EAP1", .num (Q.ofInt 38))]

/-- A row with one theory subject followed by a legacy practical whose
combined field is "18/20". -/
def rowLegacy : PyDict :=
  [("TIT1", .str "X"), ("EA1", .num (Q.ofInt 50)), ("IA1", .num (Q.ofInt 20)),
   ("PRSUB1", .str "LAB"), ("P1", .str "18/20")]

/-- Claim C4's grace gate, modelled from the claim's words: parse the
grand-total fields as numbers, allow grace only when the aggregate
percent reaches the scheme's aggregate threshold, and treat a max ≤ 0
as an unconditionally open gate. -/
def claimGraceGate (row : PyDict) (sc : Scheme) : Bool :=
  let gx := toNumeric (dget row "GTOT_MAX" (.num (Q.ofInt 0)))
  let gm := toNumeric (dget row "GTOT" (.str ""))
  if gx.gt (Q.ofInt 0)
  then PyF.ge (PyF.mul (PyF.div gm gx) (some (Q.ofInt 100))) sc.aggregate_passing
  else true

/-- Amended C4 gate, from the amended claim's words: when the raw
grand-total max (default 0) floats to a value > 0 AND the raw
grand-total marks value is a plain number, the gate compares
marks/max×100 to the aggregate threshold (a NaN marks value closes
it); in every other case — max ≤ 0 or NaN or unparseable, or marks
held as a string (the un-coerced division raises and the handler opens
the gate) — grace is allowed unconditionally. -/
def amendedGraceGate (row : PyDict) (sc : Scheme) : Bool :=
  match pyFloat (dget row "GTOT_MAX" (.num (Q.ofInt 0))) with
  | .exc => true
  | .val gx =>
    if gx.gt (Q.ofInt 0) = false then true
    else
      match dget row "GTOT" (.str "") with
      | .num m =>
        PyF.ge (PyF.mul (PyF.div (some m) gx) (some (Q.ofInt 100))) sc.aggregate_passing
      | .str _ => true
      | .nan => false

/-- A row whose aggregate percent (100/600 ≈ 16.7%) is far below
scheme1's aggregate threshold of 40, but whose GTOT value is a string,
and one narrowly failing theory subject. -/
def rowGate : PyDict :=
  [("TIT1", .str "A"), ("EA1", .num (Q.ofInt 34)), ("IA1", .num (Q.ofInt 0)),
   ("TIT2", .str "B"), ("EA2", .num (Q.ofInt 60)), ("IA2", .num (Q.ofInt 0)),
   ("GTOT", .str "100"), ("GTOT_MAX", .num (Q.ofInt 600))]

/-- A row with one credited passing theory subject, a numeric grand
total max of 600 but an unparseable grand total marks value. -/
def rowResult : PyDict :=
  [("TIT1", .str "X"), ("EA1", .num (Q.ofInt 60)), ("IA1", .num (Q.ofInt 0)),
   ("CH1", .num (Q.ofInt 4)),
   ("GTOT", .str "abc"), ("GTOT_MAX", .num (Q.ofInt 600))]

/-- As `rowResult` but with numeric grand totals (500 of 600). -/
def rowResult2 : PyDict :=
  [("TIT1", .str "X"), ("EA1", .num (Q.ofInt 60)), ("IA1", .num (Q.ofInt 0)),
   ("CH1", .num (Q.ofInt 4)),
   ("GTOT", .num (Q.ofInt 500)), ("GTOT_MAX", .num (Q.ofInt 600))]

/-- A row whose single theory subject carries a NEGATIVE explicit
total-max override, making the theory-max sum (and hence the grace
limit min(0.01·Σ, 6) = -1) negative. -/
def rowNegMax : PyDict :=
  [("TIT1", .str "X"), ("T1_MAX", .num (Q.ofInt (-100))), ("T1", .num (Q.ofInt 5))]


/-- A row with a single default-max theory subject scoring 10/100: its
shortfall 26 exceeds the grace limit 1. -/
def rowC3 : PyDict :=
  [("TIT1", .str "X"), ("EA1", .num (Q.ofInt 10)), ("IA1", .num (Q.ofInt 0))]

/-- Two credited theory subjects: 100% on 10 credit hours and 0% on -9
credit hours; total credit 1, total credit points 100. -/
def rowSgpaA : PyDict :=
  [("TIT1", .str "X"), ("EA1", .num (Q.ofInt 90)), ("IA1", .num (Q.ofInt 10)),
   ("CH1", .num (Q.ofInt 10)),
   ("TIT2", .str "Y"), ("EA2", .num (Q.ofInt 0)), ("IA2", .num (Q.ofInt 0)),
   ("CH2", .num (Q.ofInt (-9)))]

/-- Two credited theory subjects: grade points 4 on 1 credit and 5 on 2
credits; the exact SGPA 14/3 is not representable in 2 decimals. -/
def rowSgpaB : PyDict :=
  [("TIT1", .str "X"), ("EA1", .num (Q.ofInt 40)), ("IA1", .num (Q.ofInt 0)),
   ("CH1", .num (Q.ofInt 1)),
   ("TIT2", .str "Y"), ("EA2", .num (Q.ofInt 45)), ("IA2", .num (Q.ofInt 0)),
   ("CH2", .num (Q.ofInt 2))]

/-- A failing default-max theory subject (34%, needs 2) next to a
passing one; the grace limit 2 covers the shortfall. -/
def rowDefGrace : PyDict :=
  [("TIT1", .str "X"), ("EA1", .num (Q.ofInt 34)), ("IA1", .num (Q.ofInt 0)),
   ("TIT2", .str "Y"), ("EA2", .num (Q.ofInt 50)), ("IA2", .num (Q.ofInt 0))]

/-- As `rowDefGrace` but the failing subject uses an explicit total-max
override of 100 (so its output TH_MAX is the empty string). -/
def rowOvrGrace : PyDict :=
  [("TIT1", .str "X"), ("T1_MAX", .num (Q.ofInt 100)), ("T1", .num (Q.ofInt 34)),
   ("TIT2", .str "Y"), ("EA2", .num (Q.ofInt 50)), ("IA2", .num (Q.ofInt 0))]

/-- No `SUB{j}_GRACE` key carries a value: every lookup returns the
default. -/
def GraceFree (d : PyDict) : Prop :=
  ∀ j, dget d (subKey j "_GRACE") (.str "") = .str ""

/-- Invariant carried through the four extraction loops: recorded
subject indices are below the counter and strictly increasing, every
theory-list entry is registered as a theory subject in the meta list,
and no grace annotation exists yet. -/
def STOk (st : TState) : Prop :=
  (∀ q ∈ st.meta, q.1 < st.counter)
  ∧ (st.meta.map Prod.fst).Pairwise (· < ·)
  ∧ (∀ t ∈ st.theoryList, (t.1, "theory") ∈ st.meta)
  ∧ GraceFree st.nr

/-- Replay of the grade loop, checking that every per-subject credit
cell read during it parses to an error, NaN, or a nonnegative number. -/
def creditsOk (sc : Scheme) : List (ℕ × String) → GradeAcc → Bool
  | [], _ => true
  | p :: rest, acc =>
    (match pyFloat (dget acc.nr (subKey p.1 "_CREDIT") (.num (Q.ofInt 0))) with
     | .val (some x) => (Q.ofInt 0).ble x
     | _ => true)
    && creditsOk sc rest (gradeStep sc acc p)


/-- A loop-time dictionary slice for an override theory subject: raw
percent 34, blank TH_MAX, grace annotation G-2. -/
def cellsOvr : PyDict :=
  [("SUB1_PERCENT", .num (Q.ofInt 34)), ("SUB1_TH_MAX", .str ""),
   ("SUB1_GRACE", .str "G-2")]

/-- The default-max variant of `cellsOvr` (TH_MAX 70, CE_MAX 30). -/
def cellsDef : PyDict :=
  [("SUB1_PERCENT", .num (Q.ofInt 34)), ("SUB1_TH_MAX", .num (Q.ofInt 70)),
   ("SUB1_CE_MAX", .num (Q.ofInt 30)), ("SUB1_GRACE", .str "G-2")]

/-! ## Lemmas: the ℚ bridge for `Q` -/

namespace Q

theorem dposQ (q : Q) : (0 : ℚ) < (q.d : ℚ) := by exact_mod_cast q.dpos

theorem dneQ (q : Q) : (q.d : ℚ) ≠ 0 := ne_of_gt q.dposQ

theorem toRat_ofInt (i : ℤ) : (ofInt i).toRat = (i : ℚ) := by
  simp [toRat, ofInt]

theorem toRat_add (a b : Q) : (a.add b).toRat = a.toRat + b.toRat := by
  have ha := a.dneQ
  have hb := b.dneQ
  simp only [toRat, add]
  push_cast
  field_simp
  try ring

theorem toRat_sub (a b : Q) : (a.sub b).toRat = a.toRat - b.toRat := by
  have ha := a.dneQ
  have hb := b.dneQ
  simp only [toRat, sub]
  push_cast
  field_simp
  try ring

theorem toRat_mul (a b : Q) : (a.mul b).toRat = a.toRat * b.toRat := by
  have ha := a.dneQ
  have hb := b.dneQ
  simp only [toRat, mul]
  push_cast
  field_simp

theorem toRat_neg (a : Q) : a.neg.toRat = -a.toRat := by
  simp [toRat, neg, neg_div]

theorem toRat_div (a b : Q) (hb : b.n ≠ 0) : (a.div b).toRat = a.toRat / b.toRat := by
  have had : (a.d : ℚ) ≠ 0 := a.dneQ
  have hbd : (b.d : ℚ) ≠ 0 := b.dneQ
  have hbn : (b.n : ℚ) ≠ 0 := by exact_mod_cast hb
  have hR : a.toRat / b.toRat = ((a.n : ℚ) * (b.d : ℚ)) / ((a.d : ℚ) * (b.n : ℚ)) := by
    rw [toRat, toRat]
    field_simp
    try ring
  unfold div
  split_ifs with h1 h2
  · rw [hR]
    simp only [toRat]
    try push_cast
    try ring_nf
  · rw [hR]
    simp only [toRat]
    try push_cast
    try rw [neg_div_neg_eq]
  · exfalso
    rcases lt_trichotomy (a.d * b.n) 0 with h | h | h
    · exact h2 (by omega)
    · rcases mul_eq_zero.mp h with h' | h'
      · have := a.dpos; omega
      · exact hb h'
    · exact h1 h

theorem ble_iff {a b : Q} : a.ble b = true ↔ a.toRat ≤ b.toRat := by
  rw [ble, decide_eq_true_iff, toRat, toRat,
      div_le_div_iff₀ a.dposQ b.dposQ]
  constructor
  · intro h; exact_mod_cast h
  · intro h; exact_mod_cast h

theorem blt_iff {a b : Q} : a.blt b = true ↔ a.toRat < b.toRat := by
  rw [blt, decide_eq_true_iff, toRat, toRat,
      div_lt_div_iff₀ a.dposQ b.dposQ]
  constructor
  · intro h; exact_mod_cast h
  · intro h; exact_mod_cast h

theorem beq_iff {a b : Q} : a.beq b = true ↔ a.toRat = b.toRat := by
  rw [beq, beq_iff_eq, toRat, toRat,
      div_eq_div_iff a.dneQ b.dneQ]
  constructor
  · intro h; exact_mod_cast h
  · intro h; exact_mod_cast h

theorem ble_false_iff {a b : Q} : a.ble b = false ↔ b.toRat < a.toRat := by
  rw [← not_le, ← ble_iff]
  cases h : a.ble b <;> simp [h]

theorem blt_false_iff {a b : Q} : a.blt b = false ↔ b.toRat ≤ a.toRat := by
  rw [← not_lt, ← blt_iff]
  cases h : a.blt b <;> simp [h]

/-- `roundHE` rounds to `fdiv` or `fdiv + 1`. -/
theorem roundHE_cases (q : Q) :
    roundHE q = Int.fdiv q.n q.d ∨ roundHE q = Int.fdiv q.n q.d + 1 := by
  unfold roundHE
  split_ifs <;> simp

theorem fdiv_le_toRat (q : Q) : ((Int.fdiv q.n q.d : ℤ) : ℚ) ≤ q.toRat := by
  have h := Int.fdiv_add_fmod q.n q.d
  have hm : 0 ≤ Int.fmod q.n q.d := Int.fmod_nonneg' q.n q.dpos
  rw [toRat, le_div_iff₀ q.dposQ]
  have hc : (q.d : ℚ) * (Int.fdiv q.n q.d : ℚ) + (Int.fmod q.n q.d : ℚ) = (q.n : ℚ) := by
    exact_mod_cast congrArg (fun z : ℤ => (z : ℚ)) h
  nlinarith [show (0:ℚ) ≤ (Int.fmod q.n q.d : ℚ) from by exact_mod_cast hm]

theorem toRat_lt_fdiv_add_one (q : Q) :
    q.toRat < ((Int.fdiv q.n q.d : ℤ) : ℚ) + 1 := by
  have h := Int.fdiv_add_fmod q.n q.d
  have hm : Int.fmod q.n q.d < q.d := Int.fmod_lt_of_pos q.n q.dpos
  rw [toRat, div_lt_iff₀ q.dposQ]
  have hc : (q.d : ℚ) * (Int.fdiv q.n q.d : ℚ) + (Int.fmod q.n q.d : ℚ) = (q.n : ℚ) := by
    exact_mod_cast congrArg (fun z : ℤ => (z : ℚ)) h
  have hmq : (Int.fmod q.n q.d : ℚ) < (q.d : ℚ) := by exact_mod_cast hm
  nlinarith [q.dposQ]

/-- If the value is nonnegative so is its rounding. -/
theorem roundHE_nonneg (q : Q) (h : 0 ≤ q.toRat) : 0 ≤ roundHE q := by
  have hf := toRat_lt_fdiv_add_one q
  have h1 : (-1 : ℚ) < ((Int.fdiv q.n q.d : ℤ) : ℚ) := by linarith
  have hge : (-1 : ℤ) < Int.fdiv q.n q.d := by exact_mod_cast h1
  rcases roundHE_cases q with h' | h' <;> omega

/-- If the value is at most the integer `B`, so is its rounding. -/
theorem roundHE_le (q : Q) (B : ℤ) (h : q.toRat ≤ (B : ℚ)) : roundHE q ≤ B := by
  have hf := fdiv_le_toRat q
  have hfB : Int.fdiv q.n q.d ≤ B := by
    have : ((Int.fdiv q.n q.d : ℤ) : ℚ) ≤ (B : ℚ) := le_trans hf h
    exact_mod_cast this
  rcases roundHE_cases q with h' | h'
  · omega
  · rw [h']
    by_contra hlt
    have hBf : B = Int.fdiv q.n q.d := by omega
    have hmod := Int.fdiv_add_fmod q.n q.d
    have hc : (q.d : ℚ) * (Int.fdiv q.n q.d : ℚ) + (Int.fmod q.n q.d : ℚ) = (q.n : ℚ) := by
      exact_mod_cast congrArg (fun z : ℤ => (z : ℚ)) hmod
    have hfm : q.n - Int.fdiv q.n q.d * q.d = Int.fmod q.n q.d := by
      linear_combination -hmod
    unfold roundHE at h'
    rw [hfm] at h'
    split_ifs at h' with h1 h2 h3
    · omega
    · -- over the half: the value exceeds B + 1/2
      have h2' : (q.d : ℚ) < 2 * (Int.fmod q.n q.d : ℚ) := by exact_mod_cast h2
      have hBq : (B : ℚ) < q.toRat := by
        rw [toRat, lt_div_iff₀ q.dposQ, hBf]
        nlinarith [q.dposQ]
      linarith
    · -- exact tie, even case: h' is absurd
      omega
    · -- exact tie, odd case: the value is B + 1/2
      have h3' : q.d = 2 * Int.fmod q.n q.d := by omega
      have h2' : (q.d : ℚ) = 2 * (Int.fmod q.n q.d : ℚ) := by exact_mod_cast h3'
      have hBq : (B : ℚ) < q.toRat := by
        rw [toRat, lt_div_iff₀ q.dposQ, hBf]
        nlinarith [q.dposQ]
      linarith

theorem toRat_round2_nonneg (q : Q) (h : 0 ≤ q.toRat) : 0 ≤ q.round2.toRat := by
  have h100 : 0 ≤ (q.mul (ofInt 100)).toRat := by
    rw [toRat_mul, toRat_ofInt]; positivity
  have := roundHE_nonneg _ h100
  rw [round2, toRat]
  positivity

theorem toRat_round2_le (q : Q) (B : ℤ) (h : q.toRat ≤ (B : ℚ)) :
    q.round2.toRat ≤ (B : ℚ) := by
  have h100 : (q.mul (ofInt 100)).toRat ≤ ((100 * B : ℤ) : ℚ) := by
    rw [toRat_mul, toRat_ofInt]; push_cast; linarith
  have hle := roundHE_le _ _ h100
  rw [round2, toRat]
  rw [div_le_iff₀ (by norm_num : (0:ℚ) < ((100:ℤ) : ℚ))]
  calc ((roundHE (q.mul (ofInt 100)) : ℤ) : ℚ) ≤ ((100 * B : ℤ) : ℚ) := by exact_mod_cast hle
    _ = (B : ℚ) * ((100:ℤ) : ℚ) := by push_cast; ring

end Q

/-! ## Lemmas: dictionary reads and writes -/

theorem dget_dset_self (d : PyDict) (k : String) (v dflt : Val) :
    dget (dset d k v) k dflt = v := by
  simp [dget, dset, List.find?]

theorem dget_dset_ne (d : PyDict) {k k' : String} (v dflt : Val) (h : k' ≠ k) :
    dget (dset d k' v) k dflt = dget d k dflt := by
  unfold dget dset
  have hb : (k' == k) = false := beq_eq_false_iff_ne.mpr h
  simp [List.find?, hb]

/-! ## Lemmas: decimal digits and key disjointness -/

theorem toNat_digitChar {m : ℕ} (h : m < 10) : (digitChar m).toNat = 48 + m := by
  interval_cases m <;> decide

theorem digitVal_digitChar {m : ℕ} (h : m < 10) : digitVal (digitChar m) = some m := by
  interval_cases m <;> decide

theorem mem_natReprAux_digit :
    ∀ fuel n, ∀ c ∈ natReprAux fuel n, (digitVal c).isSome = true := by
  intro fuel
  induction fuel with
  | zero => intro n c hc; simp [natReprAux] at hc
  | succ fuel ih =>
    intro n c hc
    unfold natReprAux at hc
    split_ifs at hc with h10
    · simp only [List.mem_singleton] at hc
      subst hc
      rw [digitVal_digitChar h10]
      rfl
    · rcases List.mem_append.mp hc with h | h
      · exact ih _ c h
      · simp only [List.mem_singleton] at h
        subst h
        rw [digitVal_digitChar (Nat.mod_lt n (by omega))]
        rfl

theorem digitsValFrom_append (a : ℕ) (l1 l2 : List Char) :
    digitsValFrom a (l1 ++ l2) = digitsValFrom (digitsValFrom a l1) l2 := by
  simp [digitsValFrom, List.foldl_append]

theorem digitsVal_natReprAux : ∀ fuel n, n < fuel →
    digitsValFrom 0 (natReprAux fuel n) = n := by
  intro fuel
  induction fuel with
  | zero => intro n hn; omega
  | succ fuel ih =>
    intro n hn
    unfold natReprAux
    split_ifs with h10
    · simp [digitsValFrom, List.foldl, digitVal_digitChar h10]
    · rw [digitsValFrom_append]
      have h1 : n / 10 < fuel := by
        have h2 : n / 10 < n := Nat.div_lt_self (by omega) (by omega)
        omega
      rw [ih _ h1]
      simp only [digitsValFrom, List.foldl, digitVal_digitChar (Nat.mod_lt n (by omega)),
        Option.getD_some]
      omega

theorem natRepr_inj {m n : ℕ} (h : natRepr m = natRepr n) : m = n := by
  have hd : natReprAux (m + 1) m = natReprAux (n + 1) n := by
    simpa [natRepr] using congrArg String.data h
  have hm := digitsVal_natReprAux (m + 1) m (by omega)
  have hn := digitsVal_natReprAux (n + 1) n (by omega)
  rw [hd, hn] at hm
  omega

theorem natRepr_digits (n : ℕ) : ∀ c ∈ (natRepr n).data, (digitVal c).isSome = true := by
  intro c hc
  exact mem_natReprAux_digit (n + 1) n c (by simpa [natRepr] using hc)

theorem digits_append_inj : ∀ (l1 l2 t1 t2 : List Char),
    (∀ c ∈ l1, (digitVal c).isSome = true) → (∀ c ∈ l2, (digitVal c).isSome = true) →
    (∀ c, t1.head? = some c → digitVal c = none) →
    (∀ c, t2.head? = some c → digitVal c = none) →
    l1 ++ t1 = l2 ++ t2 → l1 = l2 ∧ t1 = t2 := by
  intro l1
  induction l1 with
  | nil =>
    intro l2 t1 t2 h1 h2 ht1 ht2 heq
    cases l2 with
    | nil => simpa using heq
    | cons c l2' =>
      exfalso
      simp only [List.nil_append, List.cons_append] at heq
      have hh := ht1 c (by rw [heq]; rfl)
      have hk := h2 c (by simp)
      rw [hh] at hk
      simp at hk
  | cons c l1' ih =>
    intro l2 t1 t2 h1 h2 ht1 ht2 heq
    cases l2 with
    | nil =>
      exfalso
      simp only [List.nil_append, List.cons_append] at heq
      have hh := ht2 c (by rw [← heq]; rfl)
      have hk := h1 c (by simp)
      rw [hh] at hk
      simp at hk
    | cons c2 l2' =>
      simp only [List.cons_append, List.cons.injEq] at heq
      obtain ⟨hc, hrest⟩ := heq
      obtain ⟨ha, hb⟩ := ih l2' t1 t2
        (fun x hx => h1 x (by simp [hx])) (fun x hx => h2 x (by simp [hx])) ht1 ht2 hrest
      exact ⟨by rw [hc, ha], hb⟩

theorem strdata_append (a b : String) : (a ++ b).data = a.data ++ b.data := rfl

theorem headNonDigit_prop {s : String} (h : headNonDigit s = true) :
    ∀ c, s.data.head? = some c → digitVal c = none := by
  intro c hc
  unfold headNonDigit at h
  rw [hc] at h
  simpa using h

theorem subKey_inj {i j : ℕ} {s t : String}
    (hs : headNonDigit s = true) (ht : headNonDigit t = true)
    (h : subKey i s = subKey j t) : i = j ∧ s = t := by
  have hd : (natRepr i).data ++ s.data = (natRepr j).data ++ t.data := by
    have h0 := congrArg String.data h
    simp only [subKey, strdata_append] at h0
    have : ('S' :: 'U' :: 'B' :: (natRepr i).data) ++ s.data
        = ('S' :: 'U' :: 'B' :: (natRepr j).data) ++ t.data := by
      simpa using h0
    simpa using this
  obtain ⟨h1, h2⟩ := digits_append_inj _ _ _ _ (natRepr_digits i) (natRepr_digits j)
    (headNonDigit_prop hs) (headNonDigit_prop ht) hd
  refine ⟨natRepr_inj ?_, ?_⟩
  · cases hi : natRepr i
    cases hj : natRepr j
    simp_all
  · cases s
    cases t
    simp_all

theorem subKey_ne_of_idx {i j : ℕ} {s t : String}
    (hs : headNonDigit s = true) (ht : headNonDigit t = true)
    (hij : i ≠ j) : subKey i s ≠ subKey j t :=
  fun h => hij (subKey_inj hs ht h).1

theorem subKey_ne_of_suffix {i j : ℕ} {s t : String}
    (hs : headNonDigit s = true) (ht : headNonDigit t = true)
    (hst : s ≠ t) : subKey i s ≠ subKey j t :=
  fun h => hst (subKey_inj hs ht h).2

theorem take3_subKey (i : ℕ) (s : String) : (subKey i s).data.take 3 = ['S', 'U', 'B'] := by
  have : (subKey i s).data = 'S' :: 'U' :: 'B' :: ((natRepr i).data ++ s.data) := by
    simp [subKey, strdata_append]
  rw [this]
  rfl

theorem ne_subKey_of_take3 {k : String} (hk : k.data.take 3 ≠ ['S', 'U', 'B'])
    (i : ℕ) (s : String) : k ≠ subKey i s :=
  fun h => hk (by rw [h, take3_subKey])

/-! ## Lemmas: the string form of a number is never the absent marker -/

theorem mem_natReprAux_ex :
    ∀ fuel n c, c ∈ natReprAux fuel n → ∃ m, m < 10 ∧ c = digitChar m := by
  intro fuel
  induction fuel with
  | zero => intro n c hc; simp [natReprAux] at hc
  | succ fuel ih =>
    intro n c hc
    unfold natReprAux at hc
    split_ifs at hc with h10
    · simp only [List.mem_singleton] at hc
      exact ⟨n, h10, hc⟩
    · rcases List.mem_append.mp hc with h | h
      · exact ih _ c h
      · simp only [List.mem_singleton] at h
        exact ⟨n % 10, Nat.mod_lt n (by omega), h⟩

theorem natReprAux_head :
    ∀ fuel n, 0 < fuel → ∃ m rest, m < 10 ∧ natReprAux fuel n = digitChar m :: rest := by
  intro fuel
  induction fuel with
  | zero => intro n h; omega
  | succ fuel ih =>
    intro n _
    unfold natReprAux
    split_ifs with h10
    · exact ⟨n, [], h10, rfl⟩
    · cases hf : fuel with
      | zero =>
        refine ⟨n % 10, [], Nat.mod_lt n (by omega), ?_⟩
        simp [natReprAux]
      | succ fuel' =>
        obtain ⟨m, rest, hm, hrw⟩ := ih (n / 10) (by omega)
        rw [← hf, hrw]
        exact ⟨m, rest ++ [digitChar (n % 10)], hm, rfl⟩

theorem dropWhile_all_false {p : Char → Bool} :
    ∀ {l : List Char}, (∀ c ∈ l, p c = false) → l.dropWhile p = l := by
  intro l h
  cases l with
  | nil => rfl
  | cons c rest => simp [List.dropWhile, h c (by simp)]

theorem trimChars_eq_self {l : List Char} (h : ∀ c ∈ l, isSpace c = false) :
    trimChars l = l := by
  unfold trimChars
  rw [dropWhile_all_false h, dropWhile_all_false (by intro c hc; exact h c (by simpa using hc))]
  simp

theorem isSpace_digitChar {m : ℕ} (h : m < 10) : isSpace (digitChar m) = false := by
  interval_cases m <;> decide

theorem toUpper_digitChar_ne_A {m : ℕ} (h : m < 10) : (digitChar m).toUpper ≠ 'A' := by
  interval_cases m <;> decide

/-- Characters that can occur in `numRepr` output: digits, the dash,
the dot, or the fallback marker. -/
theorem mem_numRepr (q : Q) :
    ∀ c ∈ (numRepr q).data, (∃ m, m < 10 ∧ c = digitChar m) ∨ c = '-' ∨ c = '.' ∨ c = 'x' := by
  have hnat : ∀ n : ℕ, ∀ c ∈ (natRepr n).data,
      (∃ m, m < 10 ∧ c = digitChar m) ∨ c = '-' ∨ c = '.' ∨ c = 'x' := by
    intro n c hc
    exact Or.inl (mem_natReprAux_ex (n + 1) n c (by simpa [natRepr] using hc))
  have hint : ∀ i : ℤ, ∀ c ∈ (intRepr i).data,
      (∃ m, m < 10 ∧ c = digitChar m) ∨ c = '-' ∨ c = '.' ∨ c = 'x' := by
    intro i c hc
    unfold intRepr at hc
    split_ifs at hc
    · rw [strdata_append] at hc
      rcases List.mem_append.mp hc with h | h
      · right; left; simpa using h
      · exact hnat _ c h
    · exact hnat _ c hc
  intro c hc
  unfold numRepr at hc
  rcases hfp : findPow10 q with _ | k
  · rw [hfp] at hc
    rw [strdata_append, strdata_append] at hc
    rcases List.mem_append.mp hc with h | h
    · rcases List.mem_append.mp h with h' | h'
      · exact hint _ c h'
      · right; right; right; simpa using h'
    · exact hnat _ c h
  · rw [hfp] at hc
    cases k with
    | zero => exact hint _ c hc
    | succ k' =>
      dsimp only at hc
      have hcore : ∀ (u v : ℕ) (x : Char),
          x ∈ natReprAux (u + 1) u ++ '.' :: padZeros (natReprAux (v + 1) v) (k' + 1) →
          (∃ m, m < 10 ∧ x = digitChar m) ∨ x = '-' ∨ x = '.' ∨ x = 'x' := by
        intro u v x hx
        rcases List.mem_append.mp hx with h | h
        · exact Or.inl (mem_natReprAux_ex _ _ x h)
        · rcases List.mem_cons.mp h with h' | h'
          · right; right; left; exact h'
          · unfold padZeros at h'
            rcases List.mem_append.mp h' with h'' | h''
            · refine Or.inl ⟨0, by omega, ?_⟩
              rw [List.eq_of_mem_replicate h'']
              decide
            · exact Or.inl (mem_natReprAux_ex _ _ x h'')
      split_ifs at hc with hneg
      · rcases List.mem_cons.mp hc with h | h
        · right; left; exact h
        · exact hcore _ _ c h
      · exact hcore _ _ c hc

theorem mem_numRepr_not_space (q : Q) : ∀ c ∈ (numRepr q).data, isSpace c = false := by
  intro c hc
  rcases mem_numRepr q c hc with ⟨m, hm, rfl⟩ | rfl | rfl | rfl
  · exact isSpace_digitChar hm
  · decide
  · decide
  · decide

/-- `str(x)` of a number, stripped and upper-cased, is never "AB". -/
theorem numRepr_upper_ne_AB (q : Q) : (pyUpper (pyTrim (numRepr q)) == "AB") = false := by
  have htrim : pyTrim (numRepr q) = numRepr q := by
    unfold pyTrim
    rw [trimChars_eq_self (mem_numRepr_not_space q)]
  rw [htrim]
  apply beq_eq_false_iff_ne.mpr
  intro hab
  have hdata : (numRepr q).data.map Char.toUpper = ['A', 'B'] := by
    have h0 := congrArg String.data hab
    simpa [pyUpper] using h0
  rcases hl : (numRepr q).data with _ | ⟨c1, rest⟩
  · rw [hl] at hdata; simp at hdata
  · rw [hl] at hdata
    simp only [List.map_cons, List.cons.injEq] at hdata
    have hc1 : c1 ∈ (numRepr q).data := by rw [hl]; simp
    rcases mem_numRepr q c1 hc1 with ⟨m, hm, rfl⟩ | rfl | rfl | rfl
    · exact toUpper_digitChar_ne_A hm hdata.1
    · exact absurd hdata.1 (by decide)
    · exact absurd hdata.1 (by decide)
    · exact absurd hdata.1 (by decide)

/-- Every key other than the four the SGPA/result phase writes passes
through `finishRow` unchanged. -/
theorem dget_finishRow_ne (sc : Scheme) (g : GradeAcc) (k : String) (dflt : Val)
    (h1 : k ≠ "TOT_CREDIT") (h2 : k ≠ "TOT_CREDIT_POINTS") (h3 : k ≠ "SGPA")
    (h4 : k ≠ "RESULT") :
    dget (finishRow sc g) k dflt = dget g.nr k dflt := by
  have r1 : ∀ (d : PyDict) v, dget (dset d "TOT_CREDIT" v) k dflt = dget d k dflt :=
    fun d v => dget_dset_ne d v dflt (Ne.symm h1)
  have r2 : ∀ (d : PyDict) v, dget (dset d "TOT_CREDIT_POINTS" v) k dflt = dget d k dflt :=
    fun d v => dget_dset_ne d v dflt (Ne.symm h2)
  have r3 : ∀ (d : PyDict) v, dget (dset d "SGPA" v) k dflt = dget d k dflt :=
    fun d v => dget_dset_ne d v dflt (Ne.symm h3)
  have r4 : ∀ (d : PyDict) v, dget (dset d "RESULT" v) k dflt = dget d k dflt :=
    fun d v => dget_dset_ne d v dflt (Ne.symm h4)
  unfold finishRow
  split
  · dsimp only
    split
    · split_ifs <;> simp only [r1, r2, r3, r4]
    · simp only [r1, r2, r3, r4]
  · simp only [r1, r2, r3, r4]

/-! ## Lemmas: grace distribution bounds -/

theorem PyF_max0_nonneg (x : PyF) : 0 ≤ (PyF.max0 x).toRat := by
  unfold PyF.max0
  rcases x with _ | a <;> dsimp only
  · simp [Q.toRat_ofInt]
  · split_ifs with h
    · have h2 := Q.blt_iff.mp h
      rw [Q.toRat_ofInt] at h2
      push_cast at h2
      linarith
    · simp [Q.toRat_ofInt]

theorem shortfall_fold_nonneg (thp : Q) :
    ∀ (l : List (ℕ × PyF × PyF)) (acc : Q), 0 ≤ acc.toRat →
      0 ≤ (l.foldl (fun acc t => acc.add (neededOf thp t)) acc).toRat := by
  intro l
  induction l with
  | nil => intro acc h; exact h
  | cons t rest ih =>
    intro acc h
    simp only [List.foldl_cons]
    apply ih
    rw [Q.toRat_add]
    have hn : 0 ≤ (neededOf thp t).toRat := PyF_max0_nonneg _
    linarith

theorem shortfallOf_nonneg (failed : List (ℕ × PyF × PyF)) (thp : Q) :
    0 ≤ (shortfallOf failed thp).toRat := by
  unfold shortfallOf
  apply shortfall_fold_nonneg
  rw [Q.toRat_ofInt]
  norm_num

theorem distStep_bound (meta : List (ℕ × String)) (thp : Q) (acc : PyDict × Q × Q)
    (t : ℕ × PyF × PyF) :
    acc.2.2.toRat ≤ (distStep meta thp acc t).2.2.toRat
    ∧ (distStep meta thp acc t).2.2.toRat + (distStep meta thp acc t).2.1.toRat
        = acc.2.2.toRat + acc.2.1.toRat
    ∧ (0 ≤ acc.2.1.toRat → 0 ≤ (distStep meta thp acc t).2.1.toRat) := by
  unfold distStep
  dsimp only
  split_ifs with hskip hgive hblt
  · exact ⟨le_refl _, rfl, fun h => h⟩
  · rw [Bool.and_eq_true] at hgive
    have hneed := Q.blt_iff.mp hgive.1
    have hlim := Q.blt_iff.mp hgive.2
    rw [Q.toRat_ofInt] at hneed hlim
    push_cast at hneed hlim
    dsimp only
    refine ⟨?_, ?_, fun _ => ?_⟩
    · rw [Q.toRat_add]; linarith
    · rw [Q.toRat_add, Q.toRat_sub]; ring
    · rw [Q.toRat_sub]; linarith
  · rw [Bool.and_eq_true] at hgive
    have hneed := Q.blt_iff.mp hgive.1
    have hlim := Q.blt_iff.mp hgive.2
    rw [Q.toRat_ofInt] at hneed hlim
    push_cast at hneed hlim
    have hf : acc.2.1.blt (neededOf thp t) = false := by
      cases hx : acc.2.1.blt (neededOf thp t)
      · rfl
      · exact absurd hx hblt
    have hle := Q.blt_false_iff.mp hf
    dsimp only
    refine ⟨?_, ?_, fun _ => ?_⟩
    · rw [Q.toRat_add]; linarith
    · rw [Q.toRat_add, Q.toRat_sub]; ring
    · rw [Q.toRat_sub]; linarith
  · exact ⟨le_refl _, rfl, fun h => h⟩

theorem distFold_bound (meta : List (ℕ × String)) (thp : Q) :
    ∀ (failed : List (ℕ × PyF × PyF)) (acc : PyDict × Q × Q),
      0 ≤ acc.2.1.toRat →
      acc.2.2.toRat ≤ (failed.foldl (distStep meta thp) acc).2.2.toRat
      ∧ (failed.foldl (distStep meta thp) acc).2.2.toRat
          + (failed.foldl (distStep meta thp) acc).2.1.toRat
          = acc.2.2.toRat + acc.2.1.toRat
      ∧ 0 ≤ (failed.foldl (distStep meta thp) acc).2.1.toRat := by
  intro failed
  induction failed with
  | nil => intro acc h; exact ⟨le_refl _, rfl, h⟩
  | cons t rest ih =>
    intro acc h
    have hs := distStep_bound meta thp acc t
    have hr := ih (distStep meta thp acc t) (hs.2.2 h)
    simp only [List.foldl_cons]
    exact ⟨le_trans hs.1 hr.1, by rw [hr.2.1, hs.2.1], hr.2.2⟩

/-! ## Claims -/

/-- C1 (counterexample): under scheme1 (theory 36, practical 40) a
modern-format practical with no max columns is classified
`practical_no_grace` and scores percent 38; the code grades it C with 4
points (theory threshold), while the claim's table prescribes F with 0
points (practical threshold 40, and 38 < 40 ≤ 41). -/
theorem C1_counterexample :
    (prepOf rowPNG).meta = [(1, "practical_no_grace")]
    ∧ fieldIsNum (transform_row rowPNG scheme1) "SUB1_PERCENT" (Q.ofInt 38) = true
    ∧ fieldIsStr (transform_row rowPNG scheme1) "SUB1_GRADE" "C" = true
    ∧ fieldIsNum (transform_row rowPNG scheme1) "SUB1_GRADE_POINTS" (Q.ofInt 4) = true
    ∧ claimGradeAndPoints (.num (Q.ofInt 38)) "practical_no_grace" scheme1 = ("F", 0) := by
  refine ⟨by decide, by decide, by decide, by decide, by decide⟩

/-- C1 (amended): the grade and grade points follow the claim's 8-band
table with its AB and non-numeric rules, except that a subject
classified `practical_no_grace` is graded against the THEORY passing
threshold, not the practical one: for every percent value, scheme and
subject classification, the grading the transformer applies (line 694's
`is_practical` selection fed to `compute_grade_and_points`) equals the
amended table. -/
theorem C1_grade_table (pm : Val) (sc : Scheme) (kind : String)
    (h : kind ∈ ["theory", "practical", "practical_with_max",
                 "practical_no_grace", "project", "due"]) :
    compute_grade_and_points pm (isPracticalKind kind) sc = claimGradeAmended pm kind sc := by
  fin_cases h <;> rfl

theorem C1_grade_table_witness :
    "practical_no_grace" ∈ ["theory", "practical", "practical_with_max",
                            "practical_no_grace", "project", "due"]
    ∧ compute_grade_and_points (.num (Q.ofInt 38)) (isPracticalKind "practical_no_grace") scheme1
      = claimGradeAmended (.num (Q.ofInt 38)) "practical_no_grace" scheme1 :=
  ⟨by decide, C1_grade_table (.num (Q.ofInt 38)) scheme1 "practical_no_grace" (by decide)⟩

/-- C10 (counterexample): scheme7's theory threshold is 60, and percent
55 satisfies 41 ≤ 55 < 60, yet `compute_grade_and_points` returns B
with 6 points, not C+ with 5 as the claim states. -/
theorem C10_counterexample :
    scheme7.theory_passing = Q.ofInt 60
    ∧ (Q.ofInt 41).ble (Q.ofInt 55) = true
    ∧ (Q.ofInt 55).blt scheme7.theory_passing = true
    ∧ compute_grade_and_points (.num (Q.ofInt 55)) false scheme7 = ("B", 6) := by
  refine ⟨rfl, by decide, by decide, by decide⟩

/-- C10 (amended): for every scheme, practical flag and numeric percent
p with p ≥ 41, the grade is a passing one — never "F", with at least 5
points — and it is exactly C+ with 5 points when additionally p < 51;
in particular a percent below a passing threshold that exceeds 41 still
receives a passing grade. -/
theorem C10_passing_band (sc : Scheme) (b : Bool) (p : Q)
    (h41 : (Q.ofInt 41).ble p = true) :
    (compute_grade_and_points (.num p) b sc).1 ≠ "F"
    ∧ 5 ≤ (compute_grade_and_points (.num p) b sc).2
    ∧ (p.blt (Q.ofInt 51) = true → compute_grade_and_points (.num p) b sc = ("C+", 5)) := by
  have h41' := Q.ble_iff.mp h41
  rw [Q.toRat_ofInt] at h41'
  unfold compute_grade_and_points
  split_ifs with hAB
  · exact absurd hAB (by simp [Val.pyStr, numRepr_upper_ne_AB p])
  all_goals (
    dsimp only [pyFloat, PyF.ge]
    split_ifs <;>
      refine ⟨by decide, by decide, fun hlt => ?_⟩ <;>
      first
        | rfl
        | (exfalso
           simp only [Q.ble_iff, Q.blt_iff, Q.toRat_ofInt] at *
           push_cast at *
           linarith))

/-- C8 (confirmed): legacy practical resolution.  (1) When the combined
practical field is a string whose trimmed form contains a slash and both
slash-delimited sides parse as numbers (nonzero max), the stored percent
is marks/max×100 rounded to 2 decimals.  (2) Otherwise a parseable bare
value is treated as marks out of a default max of 50, percent computed
the same way.  (3) In particular the field "18/20" yields percent 90,
grade A+ and 9 points end to end through `transform_row`. -/
theorem C8_legacy_practical :
    (∀ (row : PyDict) (i : ℕ) (st : TState) (s0 p0 p1 : String)
       (rest : List String) (m M : Q),
      ((dget row ("PRSUB" ++ natRepr i) (.str "")).notna
        && !(pyTrim (dget row ("PRSUB" ++ natRepr i) (.str "")).pyStr == "")) = true →
      dget row ("P" ++ natRepr i) (.str "") = .str s0 →
      containsChar (pyTrim s0) '/' = true →
      pySplitSlash (pyTrim s0) = p0 :: p1 :: rest →
      toNumeric (.str (pyTrim p0)) = some m →
      toNumeric (.str (pyTrim p1)) = some M →
      ¬ M.n = 0 →
      dget (prsubStep row i st).nr (subKey st.counter "_PERCENT") (.str "")
        = .num (((m.div M).mul (Q.ofInt 100)).round2))
    ∧ (∀ (row : PyDict) (i : ℕ) (st : TState) (s0 : String) (m : Q),
      ((dget row ("PRSUB" ++ natRepr i) (.str "")).notna
        && !(pyTrim (dget row ("PRSUB" ++ natRepr i) (.str "")).pyStr == "")) = true →
      dget row ("P" ++ natRepr i) (.str "") = .str s0 →
      containsChar (pyTrim s0) '/' = false →
      toNumeric (.str (pyTrim s0)) = some m →
      dget (prsubStep row i st).nr (subKey st.counter "_PERCENT") (.str "")
        = .num (((m.div (Q.ofInt 50)).mul (Q.ofInt 100)).round2))
    ∧ (prepOf rowLegacy).meta = [(1, "theory"), (2, "practical")]
    ∧ fieldIsNum (transform_row rowLegacy scheme1) "SUB2_PERCENT" (Q.ofInt 90) = true
    ∧ fieldIsStr (transform_row rowLegacy scheme1) "SUB2_GRADE" "A+" = true
    ∧ fieldIsNum (transform_row rowLegacy scheme1) "SUB2_GRADE_POINTS" (Q.ofInt 9) = true := by
  refine ⟨?_, ?_, by decide, by decide, by decide, by decide⟩
  · intro row i st s0 p0 p1 rest m M hps hP hsl hparts hm hM hMn
    unfold prsubStep
    dsimp only
    rw [hps, if_pos rfl, hP]
    dsimp only [Val.pyStr]
    rw [hsl, if_pos rfl, hparts]
    dsimp only [List.getD, List.get?, Option.getD]
    rw [hm, hM]
    dsimp only [PyF.div, PyF.mul]
    rw [if_neg hMn]
    dsimp only [Option.isSome]
    rw [if_pos rfl]
    rw [dget_dset_ne _ _ _ (subKey_ne_of_suffix (by decide) (by decide) (by decide)),
        dget_dset_ne _ _ _ (subKey_ne_of_suffix (by decide) (by decide) (by decide)),
        dget_dset_ne _ _ _ (subKey_ne_of_suffix (by decide) (by decide) (by decide)),
        dget_dset_ne _ _ _ (subKey_ne_of_suffix (by decide) (by decide) (by decide)),
        dget_dset_ne _ _ _ (subKey_ne_of_suffix (by decide) (by decide) (by decide)),
        dget_dset_ne _ _ _ (subKey_ne_of_suffix (by decide) (by decide) (by decide)),
        dget_dset_ne _ _ _ (subKey_ne_of_suffix (by decide) (by decide) (by decide)),
        dget_dset_ne _ _ _ (subKey_ne_of_suffix (by decide) (by decide) (by decide)),
        dget_dset_self]
    rfl
  · intro row i st s0 m hps hP hsl hm
    unfold prsubStep
    dsimp only
    rw [hps, if_pos rfl, hP]
    dsimp only [Val.pyStr]
    rw [hsl, if_neg (by decide)]
    rw [hm]
    dsimp only [PyF.div, PyF.mul]
    rw [if_neg (by decide : ¬ (Q.ofInt 50).n = 0)]
    dsimp only [Option.isSome]
    rw [if_pos rfl]
    rw [dget_dset_ne _ _ _ (subKey_ne_of_suffix (by decide) (by decide) (by decide)),
        dget_dset_ne _ _ _ (subKey_ne_of_suffix (by decide) (by decide) (by decide)),
        dget_dset_ne _ _ _ (subKey_ne_of_suffix (by decide) (by decide) (by decide)),
        dget_dset_ne _ _ _ (subKey_ne_of_suffix (by decide) (by decide) (by decide)),
        dget_dset_ne _ _ _ (subKey_ne_of_suffix (by decide) (by decide) (by decide)),
        dget_dset_ne _ _ _ (subKey_ne_of_suffix (by decide) (by decide) (by decide)),
        dget_dset_ne _ _ _ (subKey_ne_of_suffix (by decide) (by decide) (by decide)),
        dget_dset_ne _ _ _ (subKey_ne_of_suffix (by decide) (by decide) (by decide)),
        dget_dset_self]
    rfl

theorem C8_legacy_practical_witness :
    dget (prsubStep rowLegacy 1 ⟨[], 2, [], [], []⟩).nr (subKey 2 "_PERCENT") (.str "")
      = .num ((((Q.ofInt 18).div (Q.ofInt 20)).mul (Q.ofInt 100)).round2) :=
  C8_legacy_practical.1 rowLegacy 1 ⟨[], 2, [], [], []⟩ "18/20" "18" "20" []
    (Q.ofInt 18) (Q.ofInt 20)
    (by decide) (by decide) (by decide) (by decide) (by decide) (by decide) (by decide)

/-- C4 (counterexample): on `rowGate` under scheme1 the claim's gate is
closed (aggregate percent 100/600×100 < 40 with max 600 > 0), yet the
code opens the gate (the string GTOT makes the un-coerced division
raise, and the handler sets `allow_grace = True`) and distributes 2
grace marks, annotated on the failing subject. -/
theorem C4_counterexample :
    claimGraceGate rowGate scheme1 = false
    ∧ allowGraceOf rowGate scheme1 = true
    ∧ (graceTotalGiven rowGate scheme1).beq (Q.ofInt 2) = true
    ∧ fieldIsStr (transform_row rowGate scheme1) "SUB1_GRACE" "G-2" = true := by
  refine ⟨by decide, by decide, by decide, by decide⟩

/-- C4 (amended): the gate the code actually applies equals the amended
gate (string marks or unparseable/nonpositive max open it, NaN marks
closes it, and otherwise the aggregate-percent comparison decides); and
whenever any grace at all is distributed the gate was open. -/
theorem C4_grace_gate (row : PyDict) (sc : Scheme) :
    allowGraceOf row sc = amendedGraceGate row sc
    ∧ ((Q.ofInt 0).blt (graceTotalGiven row sc) = true → allowGraceOf row sc = true) := by
  constructor
  · unfold allowGraceOf amendedGraceGate
    rcases pyFloat (dget row "GTOT_MAX" (.num (Q.ofInt 0))) with gx | _
    · dsimp only
      by_cases hgt : gx.gt (Q.ofInt 0) = true
      · rw [hgt]
        simp only [Bool.true_eq_false, if_false, if_pos rfl]
        rcases dget row "GTOT" (.str "") with _ | m | _ <;> rfl
      · have hgt' : gx.gt (Q.ofInt 0) = false := by
          cases h : gx.gt (Q.ofInt 0)
          · rfl
          · exact absurd h hgt
        rw [hgt']
        simp
    · rfl
  · intro hgt
    by_cases ha : allowGraceOf row sc = true
    · exact ha
    · exfalso
      have hfalse : allowGraceOf row sc = false := by
        cases h : allowGraceOf row sc
        · rfl
        · exact absurd h ha
      unfold graceTotalGiven graceStage at hgt
      rw [hfalse] at hgt
      simp only [Bool.false_and, Bool.false_eq_true, if_false] at hgt
      exact absurd hgt (by decide)

theorem C4_grace_gate_witness :
    (Q.ofInt 0).blt (graceTotalGiven rowGate scheme1) = true
    ∧ allowGraceOf rowGate scheme1 = true :=
  ⟨by decide, (C4_grace_gate rowGate scheme1).2 (by decide)⟩


/-- C6 (counterexample): on `rowResult` the output grand-total max
parses as 600 > 0 and the total credit is 4 > 0, yet RESULT is the
empty string (the input RESULT field, untouched), because the
grand-total MARKS value "abc" fails to parse and the whole result
computation is skipped — the claim demands "PASS" or "FAIL" here. -/
theorem C6_counterexample :
    pyFloat (dget (transform_row rowResult scheme1) "GRAND_TOT_MAX" (.num (Q.ofInt 0)))
      = .val (some (Q.ofInt 600))
    ∧ fieldIsNum (transform_row rowResult scheme1) "TOT_CREDIT" (Q.ofInt 4) = true
    ∧ fieldIsStr (transform_row rowResult scheme1) "RESULT" "" = true
    ∧ ("" ≠ "PASS" ∧ "" ≠ "FAIL") := by
  refine ⟨by decide, by decide, by decide, by decide, by decide⟩

/-- C6 (amended): when the output grand-total marks AND max both parse,
the max is positive and the total credit is positive, RESULT is "PASS"
exactly when aggregate percent ≥ the scheme's aggregate threshold and
the (unrounded) SGPA ≥ 4, else "FAIL"; when the marks or the max fail
to parse, or the max is not positive, the result computation leaves
RESULT untouched (it keeps the value the direct mapping copied from the
input row). -/
theorem C6_result (row : PyDict) (sc : Scheme) :
    (∀ gm gx,
      pyFloat (dget (transform_row row sc) "GRAND_TOT_MRKS" (.num (Q.ofInt 0))) = .val gm →
      pyFloat (dget (transform_row row sc) "GRAND_TOT_MAX" (.num (Q.ofInt 0))) = .val gx →
      gx.gt (Q.ofInt 0) = true →
      (gradedOf row sc).total_credits.gt (Q.ofInt 0) = true →
      dget (transform_row row sc) "RESULT" (.str "")
        = .str (if ((PyF.mul (PyF.div gm gx) (some (Q.ofInt 100))).ge sc.aggregate_passing
                    && (PyF.div (gradedOf row sc).total_credit_points
                          (gradedOf row sc).total_credits).ge (Q.ofInt 4))
                then "PASS" else "FAIL"))
    ∧ (pyFloat (dget (transform_row row sc) "GRAND_TOT_MRKS" (.num (Q.ofInt 0))) = .exc →
       dget (transform_row row sc) "RESULT" (.str "") = dget (gradedOf row sc).nr "RESULT" (.str ""))
    ∧ (∀ gm, pyFloat (dget (transform_row row sc) "GRAND_TOT_MRKS" (.num (Q.ofInt 0))) = .val gm →
       pyFloat (dget (transform_row row sc) "GRAND_TOT_MAX" (.num (Q.ofInt 0))) = .exc →
       dget (transform_row row sc) "RESULT" (.str "") = dget (gradedOf row sc).nr "RESULT" (.str ""))
    ∧ (∀ gm gx, pyFloat (dget (transform_row row sc) "GRAND_TOT_MRKS" (.num (Q.ofInt 0))) = .val gm →
       pyFloat (dget (transform_row row sc) "GRAND_TOT_MAX" (.num (Q.ofInt 0))) = .val gx →
       gx.gt (Q.ofInt 0) = false →
       dget (transform_row row sc) "RESULT" (.str "") = dget (gradedOf row sc).nr "RESULT" (.str "")) := by
  have hTR : transform_row row sc = finishRow sc (gradedOf row sc) := rfl
  have hfm : dget (transform_row row sc) "GRAND_TOT_MRKS" (.num (Q.ofInt 0))
      = dget (gradedOf row sc).nr "GRAND_TOT_MRKS" (.num (Q.ofInt 0)) := by
    rw [hTR]
    exact dget_finishRow_ne _ _ _ _ (by decide) (by decide) (by decide) (by decide)
  have hfx : dget (transform_row row sc) "GRAND_TOT_MAX" (.num (Q.ofInt 0))
      = dget (gradedOf row sc).nr "GRAND_TOT_MAX" (.num (Q.ofInt 0)) := by
    rw [hTR]
    exact dget_finishRow_ne _ _ _ _ (by decide) (by decide) (by decide) (by decide)
  set g := gradedOf row sc with hg
  have p1 : ∀ (d : PyDict) v, dget (dset d "TOT_CREDIT" v) "GRAND_TOT_MRKS" (.num (Q.ofInt 0))
      = dget d "GRAND_TOT_MRKS" (.num (Q.ofInt 0)) := fun d v => dget_dset_ne d v _ (by decide)
  refine ⟨?_, ?_, ?_, ?_⟩
  · intro gm gx hgm hgx hxp htc
    rw [hfm] at hgm
    rw [hfx] at hgx
    rw [hTR]
    unfold finishRow
    rw [if_pos htc]
    dsimp only
    rw [dget_dset_ne _ _ _ (by decide : "SGPA" ≠ "GRAND_TOT_MRKS"),
        dget_dset_ne _ _ _ (by decide : "TOT_CREDIT_POINTS" ≠ "GRAND_TOT_MRKS"),
        dget_dset_ne _ _ _ (by decide : "TOT_CREDIT" ≠ "GRAND_TOT_MRKS"),
        dget_dset_ne _ _ _ (by decide : "SGPA" ≠ "GRAND_TOT_MAX"),
        dget_dset_ne _ _ _ (by decide : "TOT_CREDIT_POINTS" ≠ "GRAND_TOT_MAX"),
        dget_dset_ne _ _ _ (by decide : "TOT_CREDIT" ≠ "GRAND_TOT_MAX"),
        hgm, hgx]
    dsimp only
    rw [if_pos hxp]
    split_ifs with hpf
    · rw [dget_dset_self]
    · rw [dget_dset_self]
  · intro hgm
    rw [hfm] at hgm
    rw [hTR]
    unfold finishRow
    split
    · dsimp only
      rw [dget_dset_ne _ _ _ (by decide : "SGPA" ≠ "GRAND_TOT_MRKS"),
          dget_dset_ne _ _ _ (by decide : "TOT_CREDIT_POINTS" ≠ "GRAND_TOT_MRKS"),
          dget_dset_ne _ _ _ (by decide : "TOT_CREDIT" ≠ "GRAND_TOT_MRKS"),
          hgm]
      dsimp only
      rw [dget_dset_ne _ _ _ (by decide : "SGPA" ≠ "RESULT"),
          dget_dset_ne _ _ _ (by decide : "TOT_CREDIT_POINTS" ≠ "RESULT"),
          dget_dset_ne _ _ _ (by decide : "TOT_CREDIT" ≠ "RESULT")]
    · rw [dget_dset_ne _ _ _ (by decide : "SGPA" ≠ "RESULT"),
          dget_dset_ne _ _ _ (by decide : "TOT_CREDIT_POINTS" ≠ "RESULT"),
          dget_dset_ne _ _ _ (by decide : "TOT_CREDIT" ≠ "RESULT")]
  · intro gm hgm hgx
    rw [hfm] at hgm
    rw [hfx] at hgx
    rw [hTR]
    unfold finishRow
    split
    · dsimp only
      rw [dget_dset_ne _ _ _ (by decide : "SGPA" ≠ "GRAND_TOT_MRKS"),
          dget_dset_ne _ _ _ (by decide : "TOT_CREDIT_POINTS" ≠ "GRAND_TOT_MRKS"),
          dget_dset_ne _ _ _ (by decide : "TOT_CREDIT" ≠ "GRAND_TOT_MRKS"),
          dget_dset_ne _ _ _ (by decide : "SGPA" ≠ "GRAND_TOT_MAX"),
          dget_dset_ne _ _ _ (by decide : "TOT_CREDIT_POINTS" ≠ "GRAND_TOT_MAX"),
          dget_dset_ne _ _ _ (by decide : "TOT_CREDIT" ≠ "GRAND_TOT_MAX"),
          hgm, hgx]
      dsimp only
      rw [dget_dset_ne _ _ _ (by decide : "SGPA" ≠ "RESULT"),
          dget_dset_ne _ _ _ (by decide : "TOT_CREDIT_POINTS" ≠ "RESULT"),
          dget_dset_ne _ _ _ (by decide : "TOT_CREDIT" ≠ "RESULT")]
    · rw [dget_dset_ne _ _ _ (by decide : "SGPA" ≠ "RESULT"),
          dget_dset_ne _ _ _ (by decide : "TOT_CREDIT_POINTS" ≠ "RESULT"),
          dget_dset_ne _ _ _ (by decide : "TOT_CREDIT" ≠ "RESULT")]
  · intro gm gx hgm hgx hx0
    rw [hfm] at hgm
    rw [hfx] at hgx
    rw [hTR]
    unfold finishRow
    split
    · dsimp only
      rw [dget_dset_ne _ _ _ (by decide : "SGPA" ≠ "GRAND_TOT_MRKS"),
          dget_dset_ne _ _ _ (by decide : "TOT_CREDIT_POINTS" ≠ "GRAND_TOT_MRKS"),
          dget_dset_ne _ _ _ (by decide : "TOT_CREDIT" ≠ "GRAND_TOT_MRKS"),
          dget_dset_ne _ _ _ (by decide : "SGPA" ≠ "GRAND_TOT_MAX"),
          dget_dset_ne _ _ _ (by decide : "TOT_CREDIT_POINTS" ≠ "GRAND_TOT_MAX"),
          dget_dset_ne _ _ _ (by decide : "TOT_CREDIT" ≠ "GRAND_TOT_MAX"),
          hgm, hgx]
      dsimp only
      rw [hx0, if_neg (by decide)]
      rw [dget_dset_ne _ _ _ (by decide : "SGPA" ≠ "RESULT"),
          dget_dset_ne _ _ _ (by decide : "TOT_CREDIT_POINTS" ≠ "RESULT"),
          dget_dset_ne _ _ _ (by decide : "TOT_CREDIT" ≠ "RESULT")]
    · rw [dget_dset_ne _ _ _ (by decide : "SGPA" ≠ "RESULT"),
          dget_dset_ne _ _ _ (by decide : "TOT_CREDIT_POINTS" ≠ "RESULT"),
          dget_dset_ne _ _ _ (by decide : "TOT_CREDIT" ≠ "RESULT")]

theorem C6_result_witness :
    dget (transform_row rowResult2 scheme1) "RESULT" (.str "")
      = .str (if ((PyF.mul (PyF.div (some (Q.ofInt 500)) (some (Q.ofInt 600)))
                    (some (Q.ofInt 100))).ge scheme1.aggregate_passing
                  && (PyF.div (gradedOf rowResult2 scheme1).total_credit_points
                        (gradedOf rowResult2 scheme1).total_credits).ge (Q.ofInt 4))
              then "PASS" else "FAIL") :=
  (C6_result rowResult2 scheme1).1 (some (Q.ofInt 500)) (some (Q.ofInt 600))
    (by decide) (by decide) (by decide) (by decide)


/-- C2 (counterexample): with a single theory subject whose explicit
total-max override is -100, the grace limit min(0.01·Σtheory_max, 6) is
-1, no grace is distributed, and the distributed sum 0 EXCEEDS the
claimed bound. -/
theorem C2_counterexample :
    graceTotalGiven rowNegMax scheme1 = Q.ofInt 0
    ∧ (graceLimit0 (prepOf rowNegMax).theoryList).lt (Q.ofInt 0) = true
    ∧ PyF.leOf (graceTotalGiven rowNegMax scheme1)
        (graceLimit0 (prepOf rowNegMax).theoryList) = false := by
  refine ⟨by decide, by decide, by decide⟩

/-- C2 (amended): for every record and scheme the distributed grace sum
is nonnegative and never exceeds max(0, grace_limit), where grace_limit
= min(0.01·Σ theory max, 6); when the theory-max sum is NaN (so the
limit is NaN) nothing is distributed at all.  Equivalently, the claimed
bound min(0.01·Σ, 6) itself holds whenever it is nonnegative. -/
theorem C2_grace_bound (row : PyDict) (sc : Scheme) :
    (Q.ofInt 0).ble (graceTotalGiven row sc) = true
    ∧ (∀ l, graceLimit0 (prepOf row).theoryList = some l →
        (graceTotalGiven row sc).ble (if l.blt (Q.ofInt 0) then Q.ofInt 0 else l) = true)
    ∧ (graceLimit0 (prepOf row).theoryList = none → graceTotalGiven row sc = Q.ofInt 0) := by
  have hz : ∀ x : Q, (Q.ofInt 0).ble x = true ↔ 0 ≤ x.toRat := by
    intro x
    rw [Q.ble_iff, Q.toRat_ofInt]
    constructor
    · intro h; push_cast at h; linarith
    · intro h; push_cast; linarith
  unfold graceTotalGiven graceStage
  dsimp only
  split_ifs with hcond
  · rcases hlim : graceLimit0 (prepOf row).theoryList with _ | l
    · rw [hlim] at hcond
      simp [PyF.leOf, Bool.and_false] at hcond
    · dsimp only
      have hsfle : (shortfallOf (failedSubjects (prepOf row).theoryList sc.theory_passing)
          sc.theory_passing).toRat ≤ l.toRat := by
        rw [hlim] at hcond
        rw [Bool.and_eq_true] at hcond
        exact Q.ble_iff.mp hcond.2
      have hsf := shortfallOf_nonneg
        (failedSubjects (prepOf row).theoryList sc.theory_passing) sc.theory_passing
      have hl0 : 0 ≤ l.toRat := le_trans hsf hsfle
      have hb := distFold_bound (prepOf row).meta sc.theory_passing
        (failedSubjects (prepOf row).theoryList sc.theory_passing)
        (graceInit (prepOf row).meta (prepOf row).nr, l, Q.ofInt 0) (by dsimp only; exact hl0)
      dsimp only at hb
      rw [Q.toRat_ofInt] at hb
      push_cast at hb
      unfold distributeGrace
      refine ⟨?_, ?_, ?_⟩
      · rw [hz]
        exact le_trans (by norm_num) hb.1
      · intro l' hl'
        injection hl' with hll
        subst hll
        have hgle : (List.foldl (distStep (prepOf row).meta sc.theory_passing)
            (graceInit (prepOf row).meta (prepOf row).nr, l, Q.ofInt 0)
            (failedSubjects (prepOf row).theoryList sc.theory_passing)).2.2.toRat ≤ l.toRat := by
          have := hb.2.1
          linarith [hb.2.2]
        rw [Q.ble_iff]
        split_ifs with hneg
        · have := Q.blt_iff.mp hneg
          rw [Q.toRat_ofInt] at this
          push_cast at this
          linarith
        · exact hgle
      · intro hnone
        exact absurd hnone (by simp)
  · dsimp only
    refine ⟨by decide, ?_, fun _ => rfl⟩
    intro l hl
    rw [Q.ble_iff]
    split_ifs with hneg
    · simp [Q.toRat_ofInt]
    · have hf : l.blt (Q.ofInt 0) = false := by
        cases hx : l.blt (Q.ofInt 0)
        · rfl
        · exact absurd hx hneg
      have := Q.blt_false_iff.mp hf
      rw [Q.toRat_ofInt] at this ⊢
      push_cast at this
      push_cast
      linarith

theorem C2_grace_bound_witness :
    graceLimit0 (prepOf rowGate).theoryList = some ⟨200, 100, by decide⟩
    ∧ (graceTotalGiven rowGate scheme1).ble
        (if (⟨200, 100, by decide⟩ : Q).blt (Q.ofInt 0) then Q.ofInt 0
         else (⟨200, 100, by decide⟩ : Q)) = true :=
  ⟨by decide, (C2_grace_bound rowGate scheme1).2.1 ⟨200, 100, by decide⟩ (by decide)⟩

theorem C10_passing_band_witness :
    (Q.ofInt 41).ble (Q.ofInt 45) = true
    ∧ ((compute_grade_and_points (.num (Q.ofInt 45)) false scheme6).1 ≠ "F"
       ∧ 5 ≤ (compute_grade_and_points (.num (Q.ofInt 45)) false scheme6).2
       ∧ ((Q.ofInt 45).blt (Q.ofInt 51) = true →
          compute_grade_and_points (.num (Q.ofInt 45)) false scheme6 = ("C+", 5))) :=
  ⟨by decide, C10_passing_band scheme6 false (Q.ofInt 45) (by decide)⟩

/-! ## Lemmas: extraction-state invariant -/

theorem dget_dset_nonsub (d : PyDict) {k : String} (v dflt : Val) (j : ℕ) (s : String)
    (h : k.data.take 3 ≠ (['S', 'U', 'B'] : List Char)) :
    dget (dset d k v) (subKey j s) dflt = dget d (subKey j s) dflt :=
  dget_dset_ne _ _ _ (ne_subKey_of_take3 h j s)

theorem dget_dset_suffix_ne (d : PyDict) (i : ℕ) {s : String} (v dflt : Val) (j : ℕ)
    {t : String} (hs : headNonDigit s = true) (ht : headNonDigit t = true) (hst : s ≠ t) :
    dget (dset d (subKey i s) v) (subKey j t) dflt = dget d (subKey j t) dflt :=
  dget_dset_ne _ _ _ (subKey_ne_of_suffix hs ht hst)

theorem dget_dset_idx_ne (d : PyDict) (i : ℕ) {s : String} (v dflt : Val) (j : ℕ)
    {t : String} (hs : headNonDigit s = true) (ht : headNonDigit t = true) (hij : i ≠ j) :
    dget (dset d (subKey i s) v) (subKey j t) dflt = dget d (subKey j t) dflt :=
  dget_dset_ne _ _ _ (subKey_ne_of_idx hs ht hij)

theorem foldl_pres {α β : Type} (P : α → Prop) (f : α → β → α)
    (hf : ∀ a b, P a → P (f a b)) :
    ∀ (l : List β) (a : α), P a → P (l.foldl f a)
  | [], _, h => h
  | b :: l, a, h => foldl_pres P f hf l (f a b) (hf a b h)

theorem STOk_extend {st : TState} (nr' : PyDict) (tl' pl' : List (ℕ × PyF × PyF))
    (kind : String) (h : STOk st) (hg : GraceFree nr')
    (htl : ∀ t ∈ tl', (t.1, "theory") ∈ st.meta ++ [(st.counter, kind)]) :
    STOk ⟨nr', st.counter + 1, tl', pl', st.meta ++ [(st.counter, kind)]⟩ := by
  obtain ⟨hb, hp, _, _⟩ := h
  refine ⟨?_, ?_, htl, hg⟩
  · intro q hq
    rcases List.mem_append.1 hq with h1 | h1
    · exact Nat.lt_succ_of_lt (hb q h1)
    · rcases List.mem_singleton.1 h1 with rfl
      exact Nat.lt_succ_self _
  · rw [List.map_append]
    refine List.pairwise_append.2 ⟨hp, ?_, ?_⟩
    · simp
    · intro a ha b hb'
      simp only [List.map_cons, List.map_nil, List.mem_cons, List.not_mem_nil,
        or_false] at hb'
      subst hb'
      obtain ⟨q, hq, rfl⟩ := List.mem_map.1 ha
      exact hb q hq

theorem directMap_graceFree (row : PyDict) : GraceFree (directMap row) := by
  intro j
  unfold directMap
  dsimp only
  repeat first
    | rw [dget_dset_nonsub _ _ _ _ _ (by decide)]
    | rw [apply_ite (fun d => dget d (subKey j "_GRACE") (.str ""))]
    | rw [ite_self]
  rfl

theorem dueStep_STOk (row : PyDict) (i : ℕ) (st : TState) (h : STOk st) :
    STOk (dueStep row i st) := by
  unfold dueStep
  dsimp only
  split_ifs <;>
    first
      | exact h
      | (refine STOk_extend _ _ _ _ h (fun j => ?_)
            (fun t ht => List.mem_append_left _ (h.2.2.1 t ht))
         repeat first
           | rw [dget_dset_nonsub _ _ _ _ _ (by decide)]
           | rw [dget_dset_suffix_ne _ _ _ _ _ (by decide) (by decide) (by decide)]
           | rw [apply_ite (fun d => dget d (subKey j "_GRACE") (.str ""))]
           | rw [ite_self]
         exact h.2.2.2 j)

theorem prsubStep_STOk (row : PyDict) (i : ℕ) (st : TState) (h : STOk st) :
    STOk (prsubStep row i st) := by
  unfold prsubStep
  dsimp only
  split
  · refine STOk_extend _ _ _ _ h (fun j => ?_)
      (fun t ht => List.mem_append_left _ (h.2.2.1 t ht))
    repeat first
      | rw [dget_dset_nonsub _ _ _ _ _ (by decide)]
      | rw [dget_dset_suffix_ne _ _ _ _ _ (by decide) (by decide) (by decide)]
      | rw [apply_ite (Prod.fst : PyDict × PyF × PyF → PyDict)]
      | rw [apply_ite (fun d => dget d (subKey j "_GRACE") (.str ""))]
      | rw [ite_self]
      | dsimp only
    exact h.2.2.2 j
  · exact h

theorem theoryStep_STOk (row : PyDict) (i : ℕ) (st : TState) (h : STOk st) :
    STOk (theoryStep row i st) := by
  unfold theoryStep
  dsimp only
  split
  · exact h
  · refine prsubStep_STOk _ _ _ ?_
    refine STOk_extend _ _ _ _ h (fun j => ?_) (fun t ht => ?_)
    · repeat first
        | rw [dget_dset_nonsub _ _ _ _ _ (by decide)]
        | rw [dget_dset_suffix_ne _ _ _ _ _ (by decide) (by decide) (by decide)]
        | rw [apply_ite (Prod.snd : PyF × PyF × PyDict → PyF × PyDict)]
        | rw [apply_ite (Prod.snd : PyF × PyDict → PyDict)]
        | rw [apply_ite (fun d => dget d (subKey j "_GRACE") (.str ""))]
        | rw [ite_self]
        | dsimp only
      exact h.2.2.2 j
    · rcases List.mem_append.1 ht with h1 | h1
      · exact List.mem_append_left _ (h.2.2.1 t h1)
      · rcases List.mem_singleton.1 h1 with rfl
        exact List.mem_append_right _ (List.mem_singleton.2 rfl)

theorem modernStep_STOk (row : PyDict) (i : ℕ) (st : TState) (h : STOk st) :
    STOk (modernStep row i st) := by
  unfold modernStep
  dsimp only
  split
  · exact h
  · split <;>
      (refine STOk_extend _ _ _ _ h (fun j => ?_)
          (fun t ht => List.mem_append_left _ (h.2.2.1 t ht))
       repeat first
         | rw [dget_dset_nonsub _ _ _ _ _ (by decide)]
         | rw [dget_dset_suffix_ne _ _ _ _ _ (by decide) (by decide) (by decide)]
         | rw [apply_ite (fun d => dget d (subKey j "_GRACE") (.str ""))]
         | rw [ite_self]
       exact h.2.2.2 j)

theorem projectStep_STOk (row : PyDict) (i : ℕ) (st : TState) (h : STOk st) :
    STOk (projectStep row i st) := by
  unfold projectStep
  dsimp only
  split
  · exact h
  · refine STOk_extend _ _ _ _ h (fun j => ?_)
      (fun t ht => List.mem_append_left _ (h.2.2.1 t ht))
    repeat first
      | rw [dget_dset_nonsub _ _ _ _ _ (by decide)]
      | rw [dget_dset_suffix_ne _ _ _ _ _ (by decide) (by decide) (by decide)]
      | rw [apply_ite (fun d => dget d (subKey j "_GRACE") (.str ""))]
      | rw [ite_self]
    exact h.2.2.2 j

theorem prepOf_STOk (row : PyDict) : STOk (prepOf row) := by
  unfold prepOf buildSubjects
  dsimp only
  have h0 : STOk ⟨directMap row, 1, [], [], []⟩ := by
    refine ⟨?_, ?_, ?_, directMap_graceFree row⟩
    · intro q hq; cases hq
    · simp
    · intro t ht; cases ht
  exact foldl_pres STOk _ (fun a b hh => dueStep_STOk row b a hh) _ _
    (foldl_pres STOk _ (fun a b hh => projectStep_STOk row b a hh) _ _
      (foldl_pres STOk _ (fun a b hh => modernStep_STOk row b a hh) _ _
        (foldl_pres STOk _ (fun a b hh => theoryStep_STOk row b a hh) _ _ h0)))

/-! ## Lemmas: the grade loop factored through its cells -/

theorem gradeStep_eq (sc : Scheme) (acc : GradeAcc) (p : ℕ × String) :
    gradeStep sc acc p =
      ⟨dset (dset (dset (dset acc.nr (subKey p.1 "_GRACE")
              (gradeCellsAt sc acc.nr p.1 p.2).graceOut)
            (subKey p.1 "_GRADE") (.str (gradeCellsAt sc acc.nr p.1 p.2).grade))
          (subKey p.1 "_GRADE_POINTS") (.num (Q.ofInt (gradeCellsAt sc acc.nr p.1 p.2).gp)))
        (subKey p.1 "_CREDIT_POINTS") (Val.ofPyF (gradeCellsAt sc acc.nr p.1 p.2).creditPoints),
       PyF.add acc.total_credits (gradeCellsAt sc acc.nr p.1 p.2).credit,
       PyF.add acc.total_credit_points (gradeCellsAt sc acc.nr p.1 p.2).creditPoints⟩ := by
  have rTH : ∀ (v : Val),
      dget (dset acc.nr (subKey p.1 "_GRACE") v) (subKey p.1 "_TH_MAX") (.num (Q.ofInt 100))
        = dget acc.nr (subKey p.1 "_TH_MAX") (.num (Q.ofInt 100)) :=
    fun v => dget_dset_suffix_ne _ _ _ _ _ (by decide) (by decide) (by decide)
  have rCE : ∀ (v : Val),
      dget (dset acc.nr (subKey p.1 "_GRACE") v) (subKey p.1 "_CE_MAX") (.num (Q.ofInt 0))
        = dget acc.nr (subKey p.1 "_CE_MAX") (.num (Q.ofInt 0)) :=
    fun v => dget_dset_suffix_ne _ _ _ _ _ (by decide) (by decide) (by decide)
  have rCR : ∀ (v1 v2 v3 : Val),
      dget (dset (dset (dset acc.nr (subKey p.1 "_GRACE") v1)
          (subKey p.1 "_GRADE") v2) (subKey p.1 "_GRADE_POINTS") v3)
        (subKey p.1 "_CREDIT") (.num (Q.ofInt 0))
        = dget acc.nr (subKey p.1 "_CREDIT") (.num (Q.ofInt 0)) := by
    intro v1 v2 v3
    rw [dget_dset_suffix_ne _ _ _ _ _ (by decide) (by decide) (by decide),
      dget_dset_suffix_ne _ _ _ _ _ (by decide) (by decide) (by decide),
      dget_dset_suffix_ne _ _ _ _ _ (by decide) (by decide) (by decide)]
  unfold gradeStep gradeCellsAt gradeCells
  dsimp only
  split_ifs with h1 h2 <;>
    first
      | exact absurd (Bool.and_eq_true.mp h2).2 h1
      | (simp only [rTH, rCE, rCR]; try rfl)

theorem dget_gradeStep_ne (sc : Scheme) (acc : GradeAcc) (p : ℕ × String)
    (k : String) (dflt : Val)
    (h1 : k ≠ subKey p.1 "_GRACE") (h2 : k ≠ subKey p.1 "_GRADE")
    (h3 : k ≠ subKey p.1 "_GRADE_POINTS") (h4 : k ≠ subKey p.1 "_CREDIT_POINTS") :
    dget (gradeStep sc acc p).nr k dflt = dget acc.nr k dflt := by
  rw [gradeStep_eq]
  dsimp only
  rw [dget_dset_ne _ _ _ (Ne.symm h4), dget_dset_ne _ _ _ (Ne.symm h3),
    dget_dset_ne _ _ _ (Ne.symm h2), dget_dset_ne _ _ _ (Ne.symm h1)]

theorem dget_gradeStep_subKey_ne (sc : Scheme) (acc : GradeAcc) (p : ℕ × String)
    (j : ℕ) (s : String) (dflt : Val) (hs : headNonDigit s = true) (hj : j ≠ p.1) :
    dget (gradeStep sc acc p).nr (subKey j s) dflt = dget acc.nr (subKey j s) dflt :=
  dget_gradeStep_ne sc acc p _ dflt
    (subKey_ne_of_idx hs (by decide) hj) (subKey_ne_of_idx hs (by decide) hj)
    (subKey_ne_of_idx hs (by decide) hj) (subKey_ne_of_idx hs (by decide) hj)

theorem dget_gradeFold_subKey_ne (sc : Scheme) :
    ∀ (meta : List (ℕ × String)) (acc : GradeAcc) (j : ℕ) (s : String) (dflt : Val),
    headNonDigit s = true → j ∉ meta.map Prod.fst →
    dget ((meta.foldl (gradeStep sc) acc)).nr (subKey j s) dflt
      = dget acc.nr (subKey j s) dflt
  | [], _, _, _, _, _, _ => rfl
  | p :: rest, acc, j, s, dflt, hs, hj => by
    have hj1 : j ≠ p.1 := fun hh => hj (by simp [hh])
    have hj2 : j ∉ rest.map Prod.fst := fun hh => hj (by simp [hh])
    rw [List.foldl_cons,
      dget_gradeFold_subKey_ne sc rest (gradeStep sc acc p) j s dflt hs hj2,
      dget_gradeStep_subKey_ne sc acc p j s dflt hs hj1]

/-! ## Lemmas: grace annotations through the grade loop -/

theorem gradeStep_grace_self (sc : Scheme) (acc : GradeAcc) (idx : ℕ) (kind : String)
    (h : dget acc.nr (subKey idx "_GRACE") (.str "") = .str ""
       ∨ dget acc.nr (subKey idx "_GRACE") (.str "") = .str "G-0") :
    dget (gradeStep sc acc (idx, kind)).nr (subKey idx "_GRACE") (.str "") = .str "" := by
  rw [gradeStep_eq]
  dsimp only
  rw [dget_dset_suffix_ne _ _ _ _ _ (by decide) (by decide) (by decide),
    dget_dset_suffix_ne _ _ _ _ _ (by decide) (by decide) (by decide),
    dget_dset_suffix_ne _ _ _ _ _ (by decide) (by decide) (by decide),
    dget_dset_self]
  unfold gradeCellsAt gradeCells
  dsimp only
  rcases h with h | h <;> rw [h] <;> rfl

theorem gradeFold_grace (sc : Scheme) :
    ∀ (meta : List (ℕ × String)) (acc : GradeAcc) (j : ℕ),
    (meta.map Prod.fst).Pairwise (· < ·) →
    j ∈ meta.map Prod.fst →
    (dget acc.nr (subKey j "_GRACE") (.str "") = .str ""
      ∨ dget acc.nr (subKey j "_GRACE") (.str "") = .str "G-0") →
    dget ((meta.foldl (gradeStep sc) acc)).nr (subKey j "_GRACE") (.str "") = .str ""
  | [], _, _, _, hj, _ => absurd hj (by simp)
  | ⟨pi, pk⟩ :: rest, acc, j, hp, hj, hben => by
    have hp0 : (pi :: rest.map Prod.fst).Pairwise (· < ·) := by
      rw [List.map_cons] at hp; exact hp
    have hj0 : j ∈ pi :: rest.map Prod.fst := by
      rw [List.map_cons] at hj; exact hj
    rw [List.foldl_cons]
    by_cases hji : j = pi
    · rw [hji] at hben
      rw [hji]
      have hrest : pi ∉ rest.map Prod.fst := fun hmem =>
        absurd ((List.pairwise_cons.1 hp0).1 pi hmem) (lt_irrefl pi)
      rw [dget_gradeFold_subKey_ne sc rest (gradeStep sc acc (pi, pk)) pi "_GRACE"
        (.str "") (by decide) hrest]
      exact gradeStep_grace_self sc acc pi pk hben
    · have hj' : j ∈ rest.map Prod.fst := by
        rcases List.mem_cons.1 hj0 with h | h
        · exact absurd h hji
        · exact h
      refine gradeFold_grace sc rest (gradeStep sc acc (pi, pk)) j
        (List.pairwise_cons.1 hp0).2 hj' ?_
      rw [dget_gradeStep_subKey_ne sc acc (pi, pk) j "_GRACE" (.str "") (by decide) hji]
      exact hben

/-! ## Lemmas: the grace stage and the annotations it writes -/

theorem meta_kind_unique :
    ∀ (meta : List (ℕ × String)), (meta.map Prod.fst).Pairwise (· < ·) →
    ∀ {j : ℕ} {a b : String}, (j, a) ∈ meta → (j, b) ∈ meta → a = b
  | [], _, _, _, _, ha, _ => absurd ha (by simp)
  | ⟨pi, pk⟩ :: rest, hp, j, a, b, ha, hb => by
    have hp0 : (pi :: rest.map Prod.fst).Pairwise (· < ·) := by
      rw [List.map_cons] at hp; exact hp
    have hlt := (List.pairwise_cons.1 hp0).1
    rcases List.mem_cons.1 ha with h1 | h1 <;> rcases List.mem_cons.1 hb with h2 | h2
    · have ha2 : a = pk := congrArg Prod.snd h1
      have hb2 : b = pk := congrArg Prod.snd h2
      rw [ha2, hb2]
    · exfalso
      have hj1 : j = pi := congrArg Prod.fst h1
      have hmem : j ∈ rest.map Prod.fst := List.mem_map.2 ⟨(j, b), h2, rfl⟩
      have := hlt j hmem
      omega
    · exfalso
      have hj1 : j = pi := congrArg Prod.fst h2
      have hmem : j ∈ rest.map Prod.fst := List.mem_map.2 ⟨(j, a), h1, rfl⟩
      have := hlt j hmem
      omega
    · exact meta_kind_unique rest (List.pairwise_cons.1 hp0).2 h1 h2

theorem dget_graceInit_ne (j : ℕ) (dflt : Val) :
    ∀ (meta : List (ℕ × String)) (nr : PyDict), (j, "theory") ∉ meta →
    dget (graceInit meta nr) (subKey j "_GRACE") dflt = dget nr (subKey j "_GRACE") dflt
  | [], _, _ => rfl
  | ⟨pi, pk⟩ :: rest, nr, h => by
    have hrest : (j, "theory") ∉ rest := fun hh => h (List.mem_cons_of_mem _ hh)
    unfold graceInit
    rw [List.foldl_cons]
    show dget (graceInit rest _) _ _ = _
    rw [dget_graceInit_ne j dflt rest _ hrest]
    by_cases hk : (pk == "theory") = true
    · have hne : pi ≠ j := by
        intro hh
        exact h (by
          rw [← hh, ← beq_iff_eq.1 hk]
          exact List.mem_cons_self _ _)
      rw [if_pos hk, dget_dset_idx_ne _ _ _ _ _ (by decide) (by decide) hne]
    · rw [if_neg hk]

theorem dget_graceInit_benign (j : ℕ) :
    ∀ (meta : List (ℕ × String)) (nr : PyDict),
    (dget nr (subKey j "_GRACE") (.str "") = .str ""
      ∨ dget nr (subKey j "_GRACE") (.str "") = .str "G-0") →
    (dget (graceInit meta nr) (subKey j "_GRACE") (.str "") = .str ""
      ∨ dget (graceInit meta nr) (subKey j "_GRACE") (.str "") = .str "G-0")
  | [], _, h => h
  | ⟨pi, pk⟩ :: rest, nr, h => by
    unfold graceInit
    rw [List.foldl_cons]
    show (dget (graceInit rest _) _ _ = _ ∨ dget (graceInit rest _) _ _ = _)
    refine dget_graceInit_benign j rest _ ?_
    by_cases hk : (pk == "theory") = true
    · rw [if_pos hk]
      by_cases hij : pi = j
      · rw [hij, dget_dset_self]
        exact Or.inr rfl
      · rw [dget_dset_idx_ne _ _ _ _ _ (by decide) (by decide) hij]
        exact h
    · rw [if_neg hk]
      exact h

theorem dget_distFold_ne (thp : Q) (j : ℕ) (dflt : Val) (meta : List (ℕ × String)) :
    ∀ (failed : List (ℕ × PyF × PyF)) (acc : PyDict × Q × Q),
    (∀ t ∈ failed, t.1 ≠ j) →
    dget (failed.foldl (distStep meta thp) acc).1 (subKey j "_GRACE") dflt
      = dget acc.1 (subKey j "_GRACE") dflt
  | [], _, _ => rfl
  | t :: rest, acc, h => by
    have hrest : ∀ u ∈ rest, u.1 ≠ j := fun u hu => h u (List.mem_cons_of_mem _ hu)
    rw [List.foldl_cons, dget_distFold_ne thp j dflt meta rest _ hrest]
    unfold distStep
    dsimp only
    split_ifs <;>
      first
        | rfl
        | exact dget_dset_idx_ne _ _ _ _ _ (by decide) (by decide)
            (h t (List.mem_cons_self _ _))

theorem graceStage_skip (row : PyDict) (sc : Scheme) (st : TState)
    (h : PyF.leOf (shortfallOf (failedSubjects st.theoryList sc.theory_passing)
        sc.theory_passing) (graceLimit0 st.theoryList) = false) :
    graceStage row sc st = (graceInit st.meta st.nr, Q.ofInt 0) := by
  unfold graceStage
  dsimp only
  rw [h, Bool.and_false, if_neg Bool.false_ne_true]

theorem graceStage_grace_nontheory (row : PyDict) (sc : Scheme) (st : TState)
    (hok : STOk st) (j : ℕ) (kind : String) (hmem : (j, kind) ∈ st.meta)
    (hk : kind ≠ "theory") :
    dget (graceStage row sc st).1 (subKey j "_GRACE") (.str "") = .str "" := by
  have hnt : (j, "theory") ∉ st.meta := fun hh => hk (meta_kind_unique _ hok.2.1 hmem hh)
  have hinit : dget (graceInit st.meta st.nr) (subKey j "_GRACE") (.str "") = .str "" := by
    rw [dget_graceInit_ne j _ _ _ hnt]
    exact hok.2.2.2 j
  have hne : ∀ t ∈ failedSubjects st.theoryList sc.theory_passing, t.1 ≠ j := by
    intro t ht hteq
    have htl : t ∈ st.theoryList := List.mem_of_mem_filter ht
    have h2 := hok.2.2.1 t htl
    rw [hteq] at h2
    exact hnt h2
  unfold graceStage
  dsimp only
  split_ifs with hc
  · split
    · dsimp only
      unfold distributeGrace
      rw [dget_distFold_ne sc.theory_passing j (.str "") st.meta _ _ hne]
      exact hinit
    · exact hinit
  · exact hinit

/-- C3: if the total shortfall across failing theory subjects strictly
exceeds the grace limit, the distribution is skipped wholesale: the
total grace handed out is zero and every output GRACE annotation is the
empty string (all-or-nothing). -/
theorem C3_all_or_nothing (row : PyDict) (sc : Scheme)
    (h : (graceLimit0 (prepOf row).theoryList).lt
      (shortfallOf (failedSubjects (prepOf row).theoryList sc.theory_passing)
        sc.theory_passing) = true) :
    graceTotalGiven row sc = Q.ofInt 0
    ∧ ∀ j, dget (transform_row row sc) (subKey j "_GRACE") (.str "") = .str "" := by
  have hskip : PyF.leOf (shortfallOf (failedSubjects (prepOf row).theoryList
      sc.theory_passing) sc.theory_passing) (graceLimit0 (prepOf row).theoryList) = false := by
    rcases hl : graceLimit0 (prepOf row).theoryList with _ | l
    · rfl
    · rw [hl] at h
      have hlt := Q.blt_iff.1 h
      show Q.ble _ _ = false
      rw [Q.ble_false_iff]
      exact hlt
  have hst := prepOf_STOk row
  have hgs := graceStage_skip row sc (prepOf row) hskip
  constructor
  · unfold graceTotalGiven
    rw [hgs]
  · intro j
    unfold transform_row
    rw [dget_finishRow_ne sc _ _ _ (Ne.symm (ne_subKey_of_take3 (by decide) j "_GRACE"))
      (Ne.symm (ne_subKey_of_take3 (by decide) j "_GRACE"))
      (Ne.symm (ne_subKey_of_take3 (by decide) j "_GRACE"))
      (Ne.symm (ne_subKey_of_take3 (by decide) j "_GRACE"))]
    unfold gradedOf
    dsimp only
    by_cases hmem : j ∈ (prepOf row).meta.map Prod.fst
    · refine gradeFold_grace sc _ _ j hst.2.1 hmem ?_
      dsimp only
      rw [hgs]
      exact dget_graceInit_benign j _ _ (Or.inl (hst.2.2.2 j))
    · rw [dget_gradeFold_subKey_ne sc _ _ j "_GRACE" (.str "") (by decide) hmem]
      dsimp only
      rw [hgs]
      have hnt : (j, "theory") ∉ (prepOf row).meta := fun hh =>
        hmem (List.mem_map.2 ⟨(j, "theory"), hh, rfl⟩)
      rw [dget_graceInit_ne j _ _ _ hnt]
      exact hst.2.2.2 j

theorem C3_all_or_nothing_witness :
    (graceLimit0 (prepOf rowC3).theoryList).lt
      (shortfallOf (failedSubjects (prepOf rowC3).theoryList scheme1.theory_passing)
        scheme1.theory_passing) = true
    ∧ graceTotalGiven rowC3 scheme1 = Q.ofInt 0
    ∧ dget (transform_row rowC3 scheme1) (subKey 1 "_GRACE") (.str "") = .str "" :=
  ⟨by decide, (C3_all_or_nothing rowC3 scheme1 (by decide)).1,
    (C3_all_or_nothing rowC3 scheme1 (by decide)).2 1⟩

/-- C5: a subject registered with any non-theory kind (practical,
practical_with_max, practical_no_grace, project or due) always ends up
with an empty GRACE annotation in the output row. -/
theorem C5_nontheory_no_grace (row : PyDict) (sc : Scheme) (j : ℕ) (kind : String)
    (hmem : (j, kind) ∈ (prepOf row).meta) (hk : kind ≠ "theory") :
    dget (transform_row row sc) (subKey j "_GRACE") (.str "") = .str "" := by
  have hst := prepOf_STOk row
  unfold transform_row
  rw [dget_finishRow_ne sc _ _ _ (Ne.symm (ne_subKey_of_take3 (by decide) j "_GRACE"))
    (Ne.symm (ne_subKey_of_take3 (by decide) j "_GRACE"))
    (Ne.symm (ne_subKey_of_take3 (by decide) j "_GRACE"))
    (Ne.symm (ne_subKey_of_take3 (by decide) j "_GRACE"))]
  unfold gradedOf
  dsimp only
  refine gradeFold_grace sc _ _ j hst.2.1 (List.mem_map.2 ⟨(j, kind), hmem, rfl⟩) ?_
  dsimp only
  exact Or.inl (graceStage_grace_nontheory row sc (prepOf row) hst j kind hmem hk)

theorem C5_nontheory_no_grace_witness :
    (1, "practical_no_grace") ∈ (prepOf rowPNG).meta
    ∧ dget (transform_row rowPNG scheme1) (subKey 1 "_GRACE") (.str "") = .str "" :=
  ⟨by decide, C5_nontheory_no_grace rowPNG scheme1 1 "practical_no_grace"
    (by decide) (by decide)⟩

/-! ## Lemmas: grade points and credit totals -/

theorem gp_bounds (pm : Val) (ip : Bool) (sc : Scheme) :
    0 ≤ (compute_grade_and_points pm ip sc).2
    ∧ (compute_grade_and_points pm ip sc).2 ≤ 10 := by
  unfold compute_grade_and_points
  split
  · exact ⟨by decide, by decide⟩
  · split
    · exact ⟨by decide, by decide⟩
    · dsimp only
      split_ifs <;> exact ⟨by decide, by decide⟩

theorem cell_gp_bounds (sc : Scheme) (nr : PyDict) (idx : ℕ) (kind : String) :
    0 ≤ (gradeCellsAt sc nr idx kind).gp ∧ (gradeCellsAt sc nr idx kind).gp ≤ 10 := by
  unfold gradeCellsAt gradeCells
  dsimp only
  exact gp_bounds _ _ _

theorem cell_creditPoints (sc : Scheme) (nr : PyDict) (idx : ℕ) (kind : String) :
    (gradeCellsAt sc nr idx kind).creditPoints
      = PyF.mul (some (Q.ofInt (gradeCellsAt sc nr idx kind).gp))
          (gradeCellsAt sc nr idx kind).credit := rfl

theorem cell_credit_nonneg (sc : Scheme) (nr : PyDict) (idx : ℕ) (kind : String)
    (hok : (match pyFloat (dget nr (subKey idx "_CREDIT") (.num (Q.ofInt 0))) with
      | FRes.val (some x) => (Q.ofInt 0).ble x
      | _ => true) = true) :
    ∀ x, (gradeCellsAt sc nr idx kind).credit = some x → 0 ≤ x.toRat := by
  intro x hx
  unfold gradeCellsAt gradeCells at hx
  dsimp only at hx
  rcases hpf : pyFloat (dget nr (subKey idx "_CREDIT") (.num (Q.ofInt 0))) with v | _
  · rw [hpf] at hx hok
    rcases v with _ | y
    · simp at hx
    · simp only [Option.some.injEq] at hx
      have h0 := Q.ble_iff.1 hok
      rw [Q.toRat_ofInt] at h0
      rw [← hx]
      exact_mod_cast h0
  · rw [hpf] at hx
    simp only [Option.some.injEq] at hx
    rw [← hx, Q.toRat_ofInt]
    norm_num

theorem gradeFold_inv (sc : Scheme) :
    ∀ (meta : List (ℕ × String)) (acc : GradeAcc),
    (∀ c p, acc.total_credits = some c → acc.total_credit_points = some p →
      0 ≤ p.toRat ∧ p.toRat ≤ 10 * c.toRat) →
    creditsOk sc meta acc = true →
    ∀ c p, (meta.foldl (gradeStep sc) acc).total_credits = some c →
      (meta.foldl (gradeStep sc) acc).total_credit_points = some p →
      0 ≤ p.toRat ∧ p.toRat ≤ 10 * c.toRat
  | [], acc, hacc, _, c, p, hc, hp => hacc c p hc hp
  | q :: rest, acc, hacc, hok, c, p, hc, hp => by
    have hok' : ((match pyFloat (dget acc.nr (subKey q.1 "_CREDIT") (.num (Q.ofInt 0))) with
        | FRes.val (some x) => (Q.ofInt 0).ble x
        | _ => true)
        && creditsOk sc rest (gradeStep sc acc q)) = true := hok
    rw [Bool.and_eq_true] at hok'
    obtain ⟨hok1, hok2⟩ := hok'
    rw [List.foldl_cons] at hc hp
    refine gradeFold_inv sc rest (gradeStep sc acc q) ?_ hok2 c p hc hp
    intro c' p' hc' hp'
    rw [gradeStep_eq] at hc' hp'
    dsimp only at hc' hp'
    rw [cell_creditPoints] at hp'
    rcases hcr : (gradeCellsAt sc acc.nr q.1 q.2).credit with _ | x
    · rw [hcr] at hc'
      rcases acc.total_credits with _ | a <;> simp [PyF.add] at hc'
    · rw [hcr] at hc' hp'
      rcases hta : acc.total_credits with _ | a
      · rw [hta] at hc'
        simp [PyF.add] at hc'
      · rw [hta] at hc'
        rcases htb : acc.total_credit_points with _ | b
        · rw [htb] at hp'
          simp [PyF.add, PyF.mul] at hp'
        · rw [htb] at hp'
          simp only [PyF.add, PyF.mul, Option.some.injEq] at hc' hp'
          have hab := hacc a b hta htb
          have hx := cell_credit_nonneg sc acc.nr q.1 q.2 hok1 x hcr
          have hgp := cell_gp_bounds sc acc.nr q.1 q.2
          rw [← hc', ← hp', Q.toRat_add, Q.toRat_add, Q.toRat_mul, Q.toRat_ofInt]
          have hgp0 : (0 : ℚ) ≤ ((gradeCellsAt sc acc.nr q.1 q.2).gp : ℚ) := by
            exact_mod_cast hgp.1
          have hgp10 : ((gradeCellsAt sc acc.nr q.1 q.2).gp : ℚ) ≤ 10 := by
            exact_mod_cast hgp.2
          constructor
          · have := mul_nonneg hgp0 hx
            linarith [hab.1]
          · have := mul_le_mul_of_nonneg_right hgp10 hx
            linarith [hab.2]

/-- C7 (counterexample): on `rowSgpaA` the total credit is 1 > 0 yet
SGPA is 100, far outside [0,10] (a negative credit hour of -9 inflates
the quotient); on `rowSgpaB` SGPA is 4.67, the rounded — not exact —
value of TOT_CREDIT_POINTS/TOT_CREDIT = 14/3. -/
theorem C7_counterexample :
    fieldIsNum (transform_row rowSgpaA scheme1) "TOT_CREDIT" (Q.ofInt 1) = true
    ∧ fieldIsNum (transform_row rowSgpaA scheme1) "SGPA" (Q.ofInt 100) = true
    ∧ (Q.ofInt 100).ble (Q.ofInt 10) = false
    ∧ fieldIsNum (transform_row rowSgpaB scheme1) "TOT_CREDIT" (Q.ofInt 3) = true
    ∧ fieldIsNum (transform_row rowSgpaB scheme1) "TOT_CREDIT_POINTS" (Q.ofInt 14) = true
    ∧ fieldIsNum (transform_row rowSgpaB scheme1) "SGPA" ⟨467, 100, by decide⟩ = true
    ∧ (⟨467, 100, by decide⟩ : Q).beq ((Q.ofInt 14).div (Q.ofInt 3)) = false := by
  refine ⟨by decide, by decide, by decide, by decide, by decide, by decide, by decide⟩

/-- C7 (amended): when the total credit is positive the SGPA field holds
`round(total_credit_points / total_credits, 2)` (the rounded quotient,
never a division error); when it is not positive (zero, negative or
NaN) the SGPA field holds 0; and if additionally every credit cell read
by the grade loop parses to a nonnegative number (or fails to parse),
the SGPA lies in [0, 10]. -/
theorem C7_sgpa (row : PyDict) (sc : Scheme) :
    ((gradedOf row sc).total_credits.gt (Q.ofInt 0) = true →
      dget (transform_row row sc) "SGPA" (.str "")
        = Val.ofPyF (PyF.round2 (PyF.div (gradedOf row sc).total_credit_points
            (gradedOf row sc).total_credits)))
    ∧ ((gradedOf row sc).total_credits.gt (Q.ofInt 0) = false →
      dget (transform_row row sc) "SGPA" (.str "") = .num (Q.ofInt 0))
    ∧ (creditsOk sc (prepOf row).meta
        ⟨(graceStage row sc (prepOf row)).1, some (Q.ofInt 0), some (Q.ofInt 0)⟩ = true →
      ∀ c p, (gradedOf row sc).total_credits = some c →
        (gradedOf row sc).total_credit_points = some p →
        (Q.ofInt 0).blt c = true →
        ∃ s, dget (transform_row row sc) "SGPA" (.str "") = .num s
          ∧ 0 ≤ s.toRat ∧ s.toRat ≤ 10) := by
  have part1 : (gradedOf row sc).total_credits.gt (Q.ofInt 0) = true →
      dget (transform_row row sc) "SGPA" (.str "")
        = Val.ofPyF (PyF.round2 (PyF.div (gradedOf row sc).total_credit_points
            (gradedOf row sc).total_credits)) := by
    intro h
    unfold transform_row finishRow
    rw [if_pos h]
    dsimp only
    split
    · split_ifs <;>
        first
          | rw [dget_dset_ne _ _ _ (by decide), dget_dset_self]
          | rw [dget_dset_self]
    · rw [dget_dset_self]
  refine ⟨part1, ?_, ?_⟩
  · intro h
    unfold transform_row finishRow
    rw [if_neg (by rw [h]; exact Bool.false_ne_true)]
    dsimp only
    rw [dget_dset_self]
  · intro hok c p hc hp hcpos
    have hgt : (gradedOf row sc).total_credits.gt (Q.ofInt 0) = true := by
      rw [hc]
      exact hcpos
    have hctr : (0 : ℚ) < c.toRat := by
      have := Q.blt_iff.1 hcpos
      rwa [Q.toRat_ofInt] at this
    have hcn : c.n ≠ 0 := by
      intro h0
      rw [Q.toRat, h0] at hctr
      simp at hctr
    have hdiv : PyF.div (some p) (some c) = some (p.div c) := by
      unfold PyF.div
      dsimp only
      rw [if_neg hcn]
    have hinv := gradeFold_inv sc (prepOf row).meta
      ⟨(graceStage row sc (prepOf row)).1, some (Q.ofInt 0), some (Q.ofInt 0)⟩
      (by
        intro c0 p0 h1 h2
        rw [← Option.some.inj h1, ← Option.some.inj h2, Q.toRat_ofInt]
        norm_num)
      hok c p hc hp
    have hq : (p.div c).toRat = p.toRat / c.toRat := Q.toRat_div p c hcn
    refine ⟨(p.div c).round2, ?_, ?_, ?_⟩
    · rw [part1 hgt, hc, hp, hdiv]
      rfl
    · refine Q.toRat_round2_nonneg _ ?_
      rw [hq]
      exact div_nonneg hinv.1 (le_of_lt hctr)
    · have hle : (p.div c).toRat ≤ ((10 : ℤ) : ℚ) := by
        rw [hq]
        rw [div_le_iff₀ hctr]
        push_cast
        linarith [hinv.2]
      have := Q.toRat_round2_le _ 10 hle
      exact_mod_cast this

theorem C7_sgpa_witness :
    ((gradedOf rowSgpaB scheme1).total_credits.gt (Q.ofInt 0) = true
      ∧ dget (transform_row rowSgpaB scheme1) "SGPA" (.str "")
          = Val.ofPyF (PyF.round2 (PyF.div (gradedOf rowSgpaB scheme1).total_credit_points
              (gradedOf rowSgpaB scheme1).total_credits)))
    ∧ ((gradedOf rowPNG scheme1).total_credits.gt (Q.ofInt 0) = false
      ∧ dget (transform_row rowPNG scheme1) "SGPA" (.str "") = .num (Q.ofInt 0))
    ∧ ∃ s, dget (transform_row rowSgpaB scheme1) "SGPA" (.str "") = .num s
        ∧ 0 ≤ s.toRat ∧ s.toRat ≤ 10 :=
  ⟨⟨by decide, (C7_sgpa rowSgpaB scheme1).1 (by decide)⟩,
    ⟨by decide, (C7_sgpa rowPNG scheme1).2.1 (by decide)⟩,
    (C7_sgpa rowSgpaB scheme1).2.2 (by decide) ⟨3, 1, by decide⟩ ⟨14, 1, by decide⟩
      (by decide) (by decide) (by decide)⟩

/-! ## Lemmas: grade computation respects semantic equality -/

theorem Q.ble_congr {a b : Q} (h : a.toRat = b.toRat) (c : Q) : c.ble a = c.ble b := by
  cases hcb : c.ble b
  · rw [Q.ble_false_iff] at hcb
    exact Q.ble_false_iff.2 (by rw [h]; exact hcb)
  · exact Q.ble_iff.2 (by rw [h]; exact Q.ble_iff.1 hcb)

theorem compute_num_congr {a b : Q} (h : a.beq b = true) (ip : Bool) (sc : Scheme) :
    compute_grade_and_points (.num a) ip sc = compute_grade_and_points (.num b) ip sc := by
  have hab := Q.beq_iff.1 h
  unfold compute_grade_and_points
  dsimp only [Val.pyStr]
  rw [numRepr_upper_ne_AB a, numRepr_upper_ne_AB b,
    if_neg Bool.false_ne_true, if_neg Bool.false_ne_true]
  dsimp only [pyFloat]
  simp only [PyF.ge]
  simp only [Q.ble_congr hab]

/-- C9: the grade-loop cells of a graced theory subject.  (1) When the
subject's TH_MAX cell is the empty string (the explicit-override case),
the grade and points are computed from the raw PERCENT cell — the grace
percentage addition raises, is swallowed, and the percent is unchanged —
whatever the grace cell holds.  (2) When TH_MAX/CE_MAX are the default
70/30 and the grace annotation parses to x > 0, the grade is computed
from percent + x (total max 100), and the annotation is re-recorded as
"G-⌊x⌋".  (3) End to end: the override row gets G-2 recorded yet grade
F from its raw 34%, while the default-max row's 34% is raised to 36%
and grade C. -/
theorem C9_override_grace :
    (∀ (sc : Scheme) (nr : PyDict) (idx : ℕ) (pm : Val),
      dget nr (subKey idx "_PERCENT") (.str "") = pm →
      dget nr (subKey idx "_TH_MAX") (.num (Q.ofInt 100)) = .str "" →
      ((gradeCellsAt sc nr idx "theory").grade, (gradeCellsAt sc nr idx "theory").gp)
        = compute_grade_and_points pm false sc)
    ∧ (∀ (sc : Scheme) (nr : PyDict) (idx : ℕ) (pv : Q) (s : String) (x : Q),
      dget nr (subKey idx "_PERCENT") (.str "") = .num pv →
      dget nr (subKey idx "_GRACE") (.str "") = .str s →
      dget nr (subKey idx "_TH_MAX") (.num (Q.ofInt 100)) = .num (Q.ofInt 70) →
      dget nr (subKey idx "_CE_MAX") (.num (Q.ofInt 0)) = .num (Q.ofInt 30) →
      startsWithGDash s = true →
      pyFloat (.str ⟨removeGDash s.data⟩) = .val (some x) →
      (Q.ofInt 0).blt x = true →
      ((gradeCellsAt sc nr idx "theory").grade, (gradeCellsAt sc nr idx "theory").gp)
        = compute_grade_and_points (.num (pv.add x)) false sc
      ∧ (gradeCellsAt sc nr idx "theory").graceOut
        = .str ("G-" ++ intRepr (Q.truncZ x)))
    ∧ fieldIsStr (transform_row rowOvrGrace scheme1) "SUB1_GRACE" "G-2" = true
    ∧ fieldIsStr (transform_row rowOvrGrace scheme1) "SUB1_TH_MAX" "" = true
    ∧ fieldIsStr (transform_row rowOvrGrace scheme1) "SUB1_GRADE" "F" = true
    ∧ fieldIsStr (transform_row rowDefGrace scheme1) "SUB1_GRACE" "G-2" = true
    ∧ fieldIsStr (transform_row rowDefGrace scheme1) "SUB1_GRADE" "C" = true := by
  refine ⟨?_, ?_, by decide, by decide, by decide, by decide, by decide⟩
  · intro sc nr idx pm hpm hth
    unfold gradeCellsAt gradeCells
    dsimp only
    rw [hpm, hth]
    split_ifs <;> rfl
  · intro sc nr idx pv s x hpm hgr hth hce hs hx hxpos
    have hgt : PyF.gt (some x) (Q.ofInt 0) = true := hxpos
    have hcond : ("theory" == "theory" && PyF.gt (some x) (Q.ofInt 0)) = true := by
      rw [hgt]
      rfl
    have hT : ¬((Q.ofInt 70).add (Q.ofInt 30)).n = 0 := by decide
    have hbeq : (pv.add ((x.div ((Q.ofInt 70).add (Q.ofInt 30))).mul (Q.ofInt 100))).beq
        (pv.add x) = true := by
      refine Q.beq_iff.2 ?_
      rw [Q.toRat_add, Q.toRat_add, Q.toRat_mul, Q.toRat_div _ _ hT, Q.toRat_ofInt]
      have hTv : ((Q.ofInt 70).add (Q.ofInt 30)).toRat = 100 := by
        rw [Q.toRat_add, Q.toRat_ofInt, Q.toRat_ofInt]
        norm_num
      rw [hTv]
      push_cast
      ring
    unfold gradeCellsAt gradeCells
    dsimp only
    rw [hpm, hgr, hth, hce]
    dsimp only
    rw [if_pos hs, hx]
    dsimp only
    rw [if_pos hcond]
    dsimp only [pyFloat]
    rw [if_pos (by decide : PyF.gt (some (Q.ofInt 30)) (Q.ofInt 0) = true)]
    dsimp only [PyF.add, PyF.div, PyF.mul]
    rw [if_neg hT]
    dsimp only [Val.ofPyF]
    constructor
    · rw [show isPracticalKind "theory" = false from rfl, compute_num_congr hbeq false sc]
    · rw [if_pos hgt]
      rfl

theorem C9_override_grace_witness :
    (((gradeCellsAt scheme1 cellsOvr 1 "theory").grade,
        (gradeCellsAt scheme1 cellsOvr 1 "theory").gp)
      = compute_grade_and_points (.num (Q.ofInt 34)) false scheme1)
    ∧ (((gradeCellsAt scheme1 cellsDef 1 "theory").grade,
        (gradeCellsAt scheme1 cellsDef 1 "theory").gp)
        = compute_grade_and_points (.num ((Q.ofInt 34).add (Q.ofInt 2))) false scheme1
      ∧ (gradeCellsAt scheme1 cellsDef 1 "theory").graceOut
        = .str ("G-" ++ intRepr (Q.truncZ (Q.ofInt 2)))) :=
  ⟨C9_override_grace.1 scheme1 cellsOvr 1 (.num (Q.ofInt 34)) (by decide) (by decide),
   C9_override_grace.2.1 scheme1 cellsDef 1 (Q.ofInt 34) "G-2" (Q.ofInt 2) (by decide)
     (by decide) (by decide) (by decide) (by decide) (by decide) (by decide)⟩

end Marks
